import Mathlib

/-!
Shallow embedding of the Azure DevOps connector family
(`backend/onyx/connectors/azuredevops*/connector.py`) and proofs of the
specification claims about it.

Conventions of the embedding:
* Python `datetime` values are the record `PyDateTime` below; `datetime.strptime`
  is modelled character by character for the two format strings the code uses.
* Python exceptions are the `PyError` type; a function that can raise returns
  `Except PyError _`.
* Values read from a work item's field dictionary (`fields.get(...)`), which may
  be a string, a number or `None`, are the `PyVal` type.
* Generator functions are modelled as functions returning the full trace of
  observable events (remote queries, process invocations, yielded documents)
  together with `none` for normal termination or `some e` for an escaped
  exception; events before the raise are kept, as a consumer driving the
  generator would observe them.
* `float` timestamps (`SecondsSinceUnixEpoch`) are modelled as `Rat`.
-/

/-- Python `datetime.datetime` (naive; the code only ever attaches a UTC
`tzinfo` via `replace`, which does not change the fields). -/
structure PyDateTime where
  year : Nat
  month : Nat
  day : Nat
  hour : Nat
  minute : Nat
  second : Nat
  microsecond : Nat
deriving DecidableEq, Repr

/-- Python exceptions that the connector code can raise. -/
inductive PyError where
  /-- `TypeError`, e.g. `None > 0.1` or `strptime` on a non-string. -/
  | typeError
  /-- `ValueError` with its message. -/
  | valueError (msg : String)
  /-- `ConnectorMissingCredentialError`. -/
  | missingCredential
  /-- `OSError` from `open` on an unreadable file. -/
  | osError
  /-- a failed remote request (azure SDK exception). -/
  | requestError
deriving DecidableEq, Repr

/-- A Python value as found in a work item `fields` dict entry, or passed to
`strptime` (which receives a `datetime` at one point in the code). -/
inductive PyVal where
  | str (s : String)
  | int (n : Int)
  | dt (d : PyDateTime)
  | pynone
deriving DecidableEq, Repr

/-- Gregorian leap year, as `datetime` uses it. -/
def isLeapYear (y : Nat) : Bool :=
  y % 4 == 0 && (y % 100 != 0 || y % 400 == 0)

/-- Number of days in a month, as `datetime` uses it. -/
def daysInMonth (y m : Nat) : Nat :=
  if m = 2 then (if isLeapYear y then 29 else 28)
  else if m = 4 ∨ m = 6 ∨ m = 9 ∨ m = 11 then 30
  else 31

/-- The range checks the `datetime` constructor performs (combined with the
per-directive range checks of `_strptime`'s regular expressions; the union of
the two is exactly this predicate for the two formats used here, since
`datetime` rejects the leap seconds `60`/`61` that the `%S` regex admits). -/
def pyDateTimeValid (d : PyDateTime) : Bool :=
  decide (1 ≤ d.year) && decide (d.year ≤ 9999) &&
  decide (1 ≤ d.month) && decide (d.month ≤ 12) &&
  decide (1 ≤ d.day) && decide (d.day ≤ daysInMonth d.year d.month) &&
  decide (d.hour ≤ 23) && decide (d.minute ≤ 59) && decide (d.second ≤ 59) &&
  decide (d.microsecond ≤ 999999)

/-- Python `str.split(sep)` for a one-character separator (structural, so it
reduces in the kernel; `String.splitOn` does not). -/
def splitOnCharAux (sep : Char) : List Char → List Char → List (List Char)
  | [], acc => [acc.reverse]
  | c :: cs, acc =>
    if c = sep then acc.reverse :: splitOnCharAux sep cs []
    else splitOnCharAux sep cs (c :: acc)

/-- Python `str.split(sep)` (always non-empty, `"".split(sep) == [""]`). -/
def splitOnChar (sep : Char) (s : String) : List String :=
  (splitOnCharAux sep s.toList []).map String.mk

/-- Truncate a datetime to whole seconds. -/
def truncSec (d : PyDateTime) : PyDateTime :=
  { d with microsecond := 0 }

/-! ### Character-level model of `datetime.strptime` for the two formats
`"%Y-%m-%dT%H:%M:%SZ"` and `"%Y-%m-%dT%H:%M:%S.%fZ"`. -/

/-- Value of a decimal digit character, if it is one. -/
def digitVal? (c : Char) : Option Nat :=
  if c.isDigit then some (c.toNat - 48) else none

/-- Parse exactly `n` decimal digits (CPython's `%Y` pattern `\d\d\d\d`). -/
def parseExactDigits : Nat → Nat → List Char → Option (Nat × List Char)
  | 0, acc, cs => some (acc, cs)
  | n + 1, acc, c :: cs =>
    match digitVal? c with
    | some d => parseExactDigits n (10 * acc + d) cs
    | none => none
  | _ + 1, _, [] => none

/-- Parse one or two decimal digits, greedily.  For the directives `%m`, `%d`,
`%H`, `%M`, `%S` CPython's alternation regexes consume two digits whenever two
are available (a one-digit fallback would require the following literal, which
is never a digit in these formats, to match a digit), so greedy matching with a
final range check is extensionally the same. -/
def parse2 : List Char → Option (Nat × List Char)
  | c1 :: c2 :: rest =>
    match digitVal? c1 with
    | none => none
    | some d1 =>
      match digitVal? c2 with
      | some d2 => some (10 * d1 + d2, rest)
      | none => some (d1, c2 :: rest)
  | [c1] =>
    match digitVal? c1 with
    | none => none
    | some d1 => some (d1, [])
  | [] => none

/-- Expect a literal character. -/
def expectChar (c : Char) : List Char → Option (List Char)
  | c2 :: rest => if c2 = c then some rest else none
  | [] => none

/-- Take up to `k` leading digits (as digit values). -/
def takeDigitsAux : Nat → List Char → List Nat × List Char
  | 0, cs => ([], cs)
  | k + 1, c :: cs =>
    match digitVal? c with
    | some d =>
      let p := takeDigitsAux k cs
      (d :: p.1, p.2)
    | none => ([], c :: cs)
  | _ + 1, [] => ([], [])

/-- `%f` value: the matched digits right-padded with zeros to six places. -/
def fracValue (ds : List Nat) : Nat :=
  List.foldl (fun a d => 10 * a + d) 0 (ds ++ List.replicate (6 - ds.length) 0)

/-- Parse `%f`: one to six digits, greedily. -/
def parseFrac (cs : List Char) : Option (Nat × List Char) :=
  match takeDigitsAux 6 cs with
  | ([], _) => none
  | (d :: ds, rest) => some (fracValue (d :: ds), rest)

/-- The `%Y-%m-%d` prefix of both formats. -/
def parseYMD (cs : List Char) : Option (Nat × Nat × Nat × List Char) := do
  let (y, r0) ← parseExactDigits 4 0 cs
  let r1 ← expectChar '-' r0
  let (mo, r2) ← parse2 r1
  let r3 ← expectChar '-' r2
  let (dy, r4) ← parse2 r3
  some (y, mo, dy, r4)

/-- The `T%H:%M:%S` middle of both formats. -/
def parseHMS (cs : List Char) : Option (Nat × Nat × Nat × List Char) := do
  let r5 ← expectChar 'T' cs
  let (hh, r6) ← parse2 r5
  let r7 ← expectChar ':' r6
  let (mi, r8) ← parse2 r7
  let r9 ← expectChar ':' r8
  let (ss, r10) ← parse2 r9
  some (hh, mi, ss, r10)

/-- The shared `%Y-%m-%dT%H:%M:%S` prefix of both formats (microsecond 0). -/
def parseDateCommon (cs : List Char) : Option (PyDateTime × List Char) := do
  let (y, mo, dy, r4) ← parseYMD cs
  let (hh, mi, ss, r10) ← parseHMS r4
  some (⟨y, mo, dy, hh, mi, ss, 0⟩, r10)

/-- `datetime.strptime(s, "%Y-%m-%dT%H:%M:%SZ")`, successful iff no
`ValueError` is raised; the whole input must be consumed. -/
def strptimeIsoSeconds (cs : List Char) : Option PyDateTime := do
  let (dt, r10) ← parseDateCommon cs
  let r11 ← expectChar 'Z' r10
  match r11 with
  | [] => if pyDateTimeValid dt then some dt else none
  | _ => none

/-- `datetime.strptime(s, "%Y-%m-%dT%H:%M:%S.%fZ")`. -/
def strptimeIsoMicroseconds (cs : List Char) : Option PyDateTime := do
  let (dt0, r10) ← parseDateCommon cs
  let r11 ← expectChar '.' r10
  let (us, r12) ← parseFrac r11
  let r13 ← expectChar 'Z' r12
  match r13 with
  | [] =>
    let dt : PyDateTime := { dt0 with microsecond := us }
    if pyDateTimeValid dt then some dt else none
  | _ => none

/-- The two format strings appearing in `format_date`. -/
inductive StrpFormat where
  | isoSeconds
  | isoMicroseconds
deriving DecidableEq

/-- Run one format's matcher. -/
def runFormat : StrpFormat → List Char → Option PyDateTime
  | .isoSeconds, cs => strptimeIsoSeconds cs
  | .isoMicroseconds, cs => strptimeIsoMicroseconds cs

/-- `datetime.strptime(v, fmt)`: a non-string first argument raises
`TypeError`; a string that the format does not match raises `ValueError`. -/
def datetime_strptime (v : PyVal) (fmt : StrpFormat) : Except PyError PyDateTime :=
  match v with
  | .str s =>
    match runFormat fmt s.toList with
    | some d => .ok d
    | none => .error (.valueError ("time data " ++ s ++ " does not match format"))
  | _ => .error .typeError

/-- The `ValueError` message of `format_date`'s final `raise`. -/
def timeDataMsg : PyVal → String
  | .str s => "Time data " ++ s ++ " does not match known formats"
  | _ => "Time data does not match known formats"

/-- `format_date` (identical in `azuredevops/connector.py`,
`azuredevops_management/connector.py` and `azuredevops-codebase/connector.py`):
try `"%Y-%m-%dT%H:%M:%SZ"` then `"%Y-%m-%dT%H:%M:%S.%fZ"`; only `ValueError`
is caught by the loop, so a `TypeError` from `strptime` (non-string argument)
propagates immediately. -/
def format_date (v : PyVal) : Except PyError PyDateTime :=
  match datetime_strptime v .isoSeconds with
  | .ok d => .ok d
  | .error .typeError => .error .typeError
  | .error _ =>
    match datetime_strptime v .isoMicroseconds with
    | .ok d => .ok d
    | .error .typeError => .error .typeError
    | .error _ => .error (.valueError (timeDataMsg v))

/-! ### Rendering a datetime in the two accepted shapes (for the round-trip
statement of the timestamp-parsing claim). -/

/-- The decimal digit character for `n < 10`. -/
def digitChar (n : Nat) : Char := Char.ofNat (48 + n)

/-- Two-digit zero-padded decimal. -/
def pad2 (n : Nat) : List Char := [digitChar (n / 10), digitChar (n % 10)]

/-- Four-digit zero-padded decimal. -/
def pad4 (n : Nat) : List Char :=
  [digitChar (n / 1000), digitChar (n / 100 % 10), digitChar (n / 10 % 10), digitChar (n % 10)]

/-- Six-digit zero-padded decimal. -/
def pad6 (n : Nat) : List Char :=
  [digitChar (n / 100000), digitChar (n / 10000 % 10), digitChar (n / 1000 % 10),
   digitChar (n / 100 % 10), digitChar (n / 10 % 10), digitChar (n % 10)]

/-- The characters of `"%Y-%m-%dT%H:%M:%SZ"` applied to `d`. -/
def renderBasicChars (d : PyDateTime) : List Char :=
  pad4 d.year ++ '-' :: (pad2 d.month ++ '-' :: (pad2 d.day ++ 'T' ::
    (pad2 d.hour ++ ':' :: (pad2 d.minute ++ ':' :: (pad2 d.second ++ ['Z'])))))

/-- The characters of `"%Y-%m-%dT%H:%M:%S.%fZ"` applied to `d`
(six fraction digits). -/
def renderMicroChars (d : PyDateTime) : List Char :=
  pad4 d.year ++ '-' :: (pad2 d.month ++ '-' :: (pad2 d.day ++ 'T' ::
    (pad2 d.hour ++ ':' :: (pad2 d.minute ++ ':' ::
      (pad2 d.second ++ '.' :: (pad6 d.microsecond ++ ['Z']))))))

/-- `d` rendered in the first accepted format, e.g. `"2024-01-02T03:04:05Z"`. -/
def renderBasic (d : PyDateTime) : String := String.mk (renderBasicChars d)

/-- `d` rendered in the second accepted format, e.g.
`"2024-01-02T03:04:05.123456Z"`. -/
def renderMicro (d : PyDateTime) : String := String.mk (renderMicroChars d)

/-! ### The Batcher: `_batch_azuredevops_objects` (identical in all variants).
The `while`/`islice` loop is modelled with explicit fuel (the input length
suffices: every iteration of the loop with a non-zero batch size consumes at
least one element), so the definition reduces in the kernel. -/

/-- Loop body of `_batch_azuredevops_objects`: repeatedly slice off
`batch_size` elements, stopping on an empty slice (which a `batch_size` of `0`
produces immediately, as `islice(it, 0)` is empty). -/
def batchGo (fuel : Nat) (xs : List α) (n : Nat) : List (List α) :=
  match fuel with
  | 0 => []
  | f + 1 =>
    if n = 0 then []
    else
      match xs with
      | [] => []
      | _ :: _ => xs.take n :: batchGo f (xs.drop n) n

/-- `_batch_azuredevops_objects(git_objs, batch_size)`. -/
def batch_azuredevops_objects (xs : List α) (n : Nat) : List (List α) :=
  batchGo xs.length xs n

theorem batchGo_nil (f n : Nat) : batchGo f ([] : List α) n = [] := by
  cases f <;> simp [batchGo]

theorem batchGo_zero_size (f : Nat) (xs : List α) : batchGo f xs 0 = [] := by
  cases f <;> simp [batchGo]

theorem batchGo_fuel_congr :
    ∀ (f1 f2 : Nat) (xs : List α) (n : Nat), xs.length ≤ f1 → xs.length ≤ f2 →
      batchGo f1 xs n = batchGo f2 xs n := by
  intro f1
  induction f1 with
  | zero =>
    intro f2 xs n h1 _
    have : xs = [] := List.eq_nil_of_length_eq_zero (Nat.le_zero.mp h1)
    subst this
    simp [batchGo_nil]
  | succ f ih =>
    intro f2 xs n h1 h2
    match xs with
    | [] => simp [batchGo_nil]
    | x :: t =>
      match n with
      | 0 => simp [batchGo_zero_size]
      | n + 1 =>
        match f2 with
        | 0 => exact absurd h2 (by simp)
        | g + 1 =>
          simp only [batchGo]
          have hlen : ((x :: t).drop (n + 1)).length ≤ f := by
            simp only [List.length_drop, List.length_cons]
            simp only [List.length_cons] at h1
            omega
          have hlen2 : ((x :: t).drop (n + 1)).length ≤ g := by
            simp only [List.length_drop, List.length_cons]
            simp only [List.length_cons] at h2
            omega
          rw [ih g _ _ hlen hlen2]

theorem batch_nil (n : Nat) : batch_azuredevops_objects ([] : List α) n = [] := rfl

theorem batch_zero_size (xs : List α) : batch_azuredevops_objects xs 0 = [] :=
  batchGo_zero_size _ _

theorem batch_cons (xs : List α) (n : Nat) (hn : n ≠ 0) (hxs : xs ≠ []) :
    batch_azuredevops_objects xs n
      = xs.take n :: batch_azuredevops_objects (xs.drop n) n := by
  match xs with
  | [] => exact absurd rfl hxs
  | x :: t =>
    match n with
    | 0 => exact absurd rfl hn
    | n + 1 =>
      show batchGo (t.length + 1) (x :: t) (n + 1) = _
      simp only [batchGo]
      rw [batchGo_fuel_congr t.length ((x :: t).drop (n + 1)).length]
      · rfl
      · simp only [List.length_drop, List.length_cons]; omega
      · exact Nat.le_refl _

theorem batch_eq_nil_iff (xs : List α) (n : Nat) (hn : n ≠ 0) :
    batch_azuredevops_objects xs n = [] ↔ xs = [] := by
  constructor
  · intro h
    by_contra hxs
    rw [batch_cons xs n hn hxs] at h
    exact List.cons_ne_nil _ _ h
  · intro h; subst h; exact batch_nil n

theorem batch_flatten (xs : List α) (n : Nat) (hn : n ≠ 0) :
    (batch_azuredevops_objects xs n).flatten = xs := by
  by_cases hxs : xs = []
  · subst hxs; simp [batch_nil]
  · rw [batch_cons xs n hn hxs]
    simp only [List.flatten_cons]
    rw [batch_flatten (xs.drop n) n hn]
    exact List.take_append_drop n xs
termination_by xs.length
decreasing_by
  simp only [List.length_drop]
  have : 0 < xs.length := List.length_pos.mpr hxs
  omega

theorem batch_count (xs : List α) (n : Nat) (hn : n ≠ 0) :
    (batch_azuredevops_objects xs n).length = (xs.length + n - 1) / n := by
  by_cases hxs : xs = []
  · subst hxs
    simp [batch_nil, Nat.div_eq_of_lt (by omega : n - 1 < n)]
  · rw [batch_cons xs n hn hxs]
    simp only [List.length_cons]
    rw [batch_count (xs.drop n) n hn]
    simp only [List.length_drop]
    have hpos : 0 < xs.length := List.length_pos.mpr hxs
    by_cases hle : xs.length ≤ n
    · have h1 : xs.length - n = 0 := by omega
      rw [h1]
      have h2 : (0 + n - 1) / n = 0 := Nat.div_eq_of_lt (by omega)
      rw [h2]
      have h3 : xs.length + n - 1 = (xs.length - 1) + n := by omega
      rw [h3, Nat.add_div_right _ (by omega : 0 < n),
        Nat.div_eq_of_lt (by omega : xs.length - 1 < n)]
    · have h3 : xs.length - n + n - 1 = (xs.length - n - 1) + n := by omega
      have h4 : xs.length + n - 1 = (xs.length - 1) + n := by omega
      have h5 : xs.length - 1 = (xs.length - n - 1) + n := by omega
      rw [h3, Nat.add_div_right _ (by omega : 0 < n), h4,
        Nat.add_div_right _ (by omega : 0 < n), h5,
        Nat.add_div_right _ (by omega : 0 < n)]
termination_by xs.length
decreasing_by
  simp only [List.length_drop]
  have : 0 < xs.length := List.length_pos.mpr hxs
  omega

theorem batch_mem_ne_nil (xs : List α) (n : Nat) (hn : n ≠ 0) :
    ∀ b ∈ batch_azuredevops_objects xs n, b ≠ [] := by
  by_cases hxs : xs = []
  · subst hxs; simp [batch_nil]
  · rw [batch_cons xs n hn hxs]
    intro b hb
    rcases List.mem_cons.mp hb with h | h
    · subst h
      simp only [ne_eq, List.take_eq_nil_iff]
      push_neg
      exact ⟨hn, hxs⟩
    · exact batch_mem_ne_nil (xs.drop n) n hn b h
termination_by xs.length
decreasing_by
  simp only [List.length_drop]
  have : 0 < xs.length := List.length_pos.mpr hxs
  omega

theorem batch_dropLast_full (xs : List α) (n : Nat) (hn : n ≠ 0) :
    ∀ b ∈ (batch_azuredevops_objects xs n).dropLast, b.length = n := by
  by_cases hxs : xs = []
  · subst hxs; simp [batch_nil]
  · rw [batch_cons xs n hn hxs]
    by_cases hrest : xs.drop n = []
    · rw [hrest, batch_nil]
      simp
    · have hbn : batch_azuredevops_objects (xs.drop n) n ≠ [] := by
        rw [ne_eq, batch_eq_nil_iff _ n hn]
        exact hrest
      match hB : batch_azuredevops_objects (xs.drop n) n with
      | [] => exact absurd hB hbn
      | c :: cs =>
        intro b hb
        rw [List.dropLast_cons₂] at hb
        rcases List.mem_cons.mp hb with h | h
        · subst h
          rw [List.length_take]
          have hlong : n < xs.length := by
            have h2 := (not_congr List.drop_eq_nil_iff).mp hrest
            omega
          omega
        · have := batch_dropLast_full (xs.drop n) n hn
          rw [hB] at this
          exact this b h
termination_by xs.length
decreasing_by
  simp only [List.length_drop]
  have : 0 < xs.length := List.length_pos.mpr hxs
  omega

theorem getLastD_irrel (l : List α) (a b : α) (h : l ≠ []) :
    l.getLastD a = l.getLastD b := by
  match l with
  | [] => exact absurd rfl h
  | x :: t => rfl

theorem batch_last_size (xs : List α) (n : Nat) (hn : n ≠ 0) (hxs : xs ≠ []) :
    ((batch_azuredevops_objects xs n).getLastD []).length
      = if xs.length % n = 0 then n else xs.length % n := by
  rw [batch_cons xs n hn hxs]
  have hpos : 0 < xs.length := List.length_pos.mpr hxs
  by_cases hrest : xs.drop n = []
  · rw [hrest, batch_nil]
    have hle : xs.length ≤ n := List.drop_eq_nil_iff.mp hrest
    have hl1 : ([xs.take n] : List (List α)).getLastD [] = xs.take n := rfl
    rw [hl1, List.length_take]
    rcases Nat.lt_or_ge xs.length n with hlt | hge
    · rw [Nat.mod_eq_of_lt hlt, if_neg (by omega)]
      omega
    · have heq : xs.length = n := le_antisymm hle hge
      rw [heq, Nat.mod_self, if_pos rfl]
      omega
  · have hbn : batch_azuredevops_objects (xs.drop n) n ≠ [] := by
      rw [ne_eq, batch_eq_nil_iff _ n hn]
      exact hrest
    have hstep :
        ((xs.take n :: batch_azuredevops_objects (xs.drop n) n).getLastD []) =
          ((batch_azuredevops_objects (xs.drop n) n).getLastD []) := by
      match hB : batch_azuredevops_objects (xs.drop n) n with
      | [] => exact absurd hB hbn
      | c :: cs => rfl
    rw [hstep, batch_last_size (xs.drop n) n hn hrest]
    have hlong : n < xs.length := by
      have h2 := (not_congr List.drop_eq_nil_iff).mp hrest
      omega
    have hmod : (xs.drop n).length % n = xs.length % n := by
      simp only [List.length_drop]
      conv_rhs => rw [(by omega : xs.length = (xs.length - n) + n)]
      rw [Nat.add_mul_mod_self_right (xs.length - n) 1 n |>.symm] at *
      rw [(by omega : xs.length - n + n = xs.length - n + 1 * n), Nat.add_mul_mod_self_right]
    rw [hmod]
termination_by xs.length
decreasing_by
  simp only [List.length_drop]
  omega

/-! ### Round-trip lemmas for the `strptime` model. -/

theorem digitVal_digitChar (k : Nat) (h : k ≤ 9) :
    digitVal? (digitChar k) = some k := by
  interval_cases k <;> decide

theorem expectChar_cons_self (c : Char) (rest : List Char) :
    expectChar c (c :: rest) = some rest := by
  simp [expectChar]

theorem expectChar_cons_ne (c c2 : Char) (rest : List Char) (h : c2 ≠ c) :
    expectChar c (c2 :: rest) = none := by
  simp [expectChar, h]

theorem parseExact4_pad4 (n : Nat) (h : n ≤ 9999) (rest : List Char) :
    parseExactDigits 4 0 (pad4 n ++ rest) = some (n, rest) := by
  have h1 : n / 1000 ≤ 9 := by omega
  have h2 : n / 100 % 10 ≤ 9 := by omega
  have h3 : n / 10 % 10 ≤ 9 := by omega
  have h4 : n % 10 ≤ 9 := by omega
  simp only [pad4, List.cons_append, List.nil_append, parseExactDigits,
    digitVal_digitChar _ h1, digitVal_digitChar _ h2, digitVal_digitChar _ h3,
    digitVal_digitChar _ h4]
  have heq : 10 * (10 * (10 * (10 * 0 + n / 1000) + n / 100 % 10) + n / 10 % 10) + n % 10 = n := by
    omega
  rw [heq]
  rfl

theorem parse2_pad2 (n : Nat) (h : n ≤ 99) (rest : List Char) :
    parse2 (pad2 n ++ rest) = some (n, rest) := by
  have h1 : n / 10 ≤ 9 := by omega
  have h2 : n % 10 ≤ 9 := by omega
  simp only [pad2, List.cons_append, List.nil_append, parse2,
    digitVal_digitChar _ h1, digitVal_digitChar _ h2]
  have heq : 10 * (n / 10) + n % 10 = n := by omega
  rw [heq]

theorem takeDigits_pad6 (n : Nat) (h : n ≤ 999999) (c : Char) (rest : List Char) :
    takeDigitsAux 6 (pad6 n ++ c :: rest)
      = ([n / 100000, n / 10000 % 10, n / 1000 % 10, n / 100 % 10, n / 10 % 10, n % 10],
         c :: rest) := by
  have h1 : n / 100000 ≤ 9 := by omega
  have h2 : n / 10000 % 10 ≤ 9 := by omega
  have h3 : n / 1000 % 10 ≤ 9 := by omega
  have h4 : n / 100 % 10 ≤ 9 := by omega
  have h5 : n / 10 % 10 ≤ 9 := by omega
  have h6 : n % 10 ≤ 9 := by omega
  simp only [pad6, List.cons_append, List.nil_append, takeDigitsAux,
    digitVal_digitChar _ h1, digitVal_digitChar _ h2, digitVal_digitChar _ h3,
    digitVal_digitChar _ h4, digitVal_digitChar _ h5, digitVal_digitChar _ h6]
  rfl

theorem fracValue_digits (n : Nat) (h : n ≤ 999999) :
    fracValue [n / 100000, n / 10000 % 10, n / 1000 % 10, n / 100 % 10, n / 10 % 10, n % 10]
      = n := by
  show 10 * (10 * (10 * (10 * (10 * (10 * 0 + n / 100000) + n / 10000 % 10)
    + n / 1000 % 10) + n / 100 % 10) + n / 10 % 10) + n % 10 = n
  omega

theorem parseFrac_pad6 (n : Nat) (h : n ≤ 999999) (rest : List Char) :
    parseFrac (pad6 n ++ 'Z' :: rest) = some (n, 'Z' :: rest) := by
  unfold parseFrac
  rw [takeDigits_pad6 n h 'Z' rest]
  show some (fracValue [n / 100000, n / 10000 % 10, n / 1000 % 10, n / 100 % 10,
    n / 10 % 10, n % 10], 'Z' :: rest) = some (n, 'Z' :: rest)
  rw [fracValue_digits n h]

theorem toList_mk (cs : List Char) : (String.mk cs).toList = cs := rfl

theorem daysInMonth_le (y m : Nat) : daysInMonth y m ≤ 31 := by
  unfold daysInMonth
  split_ifs <;> omega

theorem strptimeIsoSeconds_render (d : PyDateTime) (h : pyDateTimeValid d = true) :
    strptimeIsoSeconds (renderBasicChars d) = some (truncSec d) := by
  simp only [pyDateTimeValid, Bool.and_eq_true, decide_eq_true_eq] at h
  obtain ⟨⟨⟨⟨⟨⟨⟨⟨⟨h1, h2⟩, h3⟩, h4⟩, h5⟩, h6⟩, h7⟩, h8⟩, h9⟩, h10⟩ := h
  simp only [strptimeIsoSeconds, parseDateCommon, parseYMD, parseHMS,
    renderBasicChars, bind, Option.bind,
    parseExact4_pad4 d.year (by omega), expectChar_cons_self,
    parse2_pad2 d.month (by omega),
    parse2_pad2 d.day (by have := daysInMonth_le d.year d.month; omega),
    parse2_pad2 d.hour (by omega), parse2_pad2 d.minute (by omega),
    parse2_pad2 d.second (by omega)]
  have hv : pyDateTimeValid
      ⟨d.year, d.month, d.day, d.hour, d.minute, d.second, 0⟩ = true := by
    simp only [pyDateTimeValid, Bool.and_eq_true, decide_eq_true_eq]
    exact ⟨⟨⟨⟨⟨⟨⟨⟨⟨h1, h2⟩, h3⟩, h4⟩, h5⟩, h6⟩, h7⟩, h8⟩, h9⟩, by omega⟩
  rw [if_pos hv]
  rfl

theorem strptimeIsoSeconds_renderMicro (d : PyDateTime) (h : pyDateTimeValid d = true) :
    strptimeIsoSeconds (renderMicroChars d) = none := by
  simp only [pyDateTimeValid, Bool.and_eq_true, decide_eq_true_eq] at h
  obtain ⟨⟨⟨⟨⟨⟨⟨⟨⟨h1, h2⟩, h3⟩, h4⟩, h5⟩, h6⟩, h7⟩, h8⟩, h9⟩, h10⟩ := h
  simp only [strptimeIsoSeconds, parseDateCommon, parseYMD, parseHMS,
    renderMicroChars, bind, Option.bind,
    parseExact4_pad4 d.year (by omega), expectChar_cons_self,
    parse2_pad2 d.month (by omega),
    parse2_pad2 d.day (by have := daysInMonth_le d.year d.month; omega),
    parse2_pad2 d.hour (by omega), parse2_pad2 d.minute (by omega),
    parse2_pad2 d.second (by omega),
    expectChar_cons_ne 'Z' '.' _ (by decide)]

theorem strptimeIsoMicroseconds_render (d : PyDateTime) (h : pyDateTimeValid d = true) :
    strptimeIsoMicroseconds (renderMicroChars d) = some d := by
  simp only [pyDateTimeValid, Bool.and_eq_true, decide_eq_true_eq] at h
  obtain ⟨⟨⟨⟨⟨⟨⟨⟨⟨h1, h2⟩, h3⟩, h4⟩, h5⟩, h6⟩, h7⟩, h8⟩, h9⟩, h10⟩ := h
  simp only [strptimeIsoMicroseconds, parseDateCommon, parseYMD, parseHMS,
    renderMicroChars, bind, Option.bind,
    parseExact4_pad4 d.year (by omega), expectChar_cons_self,
    parse2_pad2 d.month (by omega),
    parse2_pad2 d.day (by have := daysInMonth_le d.year d.month; omega),
    parse2_pad2 d.hour (by omega), parse2_pad2 d.minute (by omega),
    parse2_pad2 d.second (by omega), parseFrac_pad6 d.microsecond (by omega)]
  have hv : pyDateTimeValid
      ⟨d.year, d.month, d.day, d.hour, d.minute, d.second, d.microsecond⟩ = true := by
    simp only [pyDateTimeValid, Bool.and_eq_true, decide_eq_true_eq]
    exact ⟨⟨⟨⟨⟨⟨⟨⟨⟨h1, h2⟩, h3⟩, h4⟩, h5⟩, h6⟩, h7⟩, h8⟩, h9⟩, h10⟩
  rw [if_pos hv]

theorem format_date_renderBasic (d : PyDateTime) (h : pyDateTimeValid d = true) :
    format_date (.str (renderBasic d)) = .ok (truncSec d) := by
  simp only [format_date, datetime_strptime, runFormat, renderBasic, toList_mk,
    strptimeIsoSeconds_render d h]

theorem format_date_renderMicro (d : PyDateTime) (h : pyDateTimeValid d = true) :
    format_date (.str (renderMicro d)) = .ok d := by
  simp only [format_date, datetime_strptime, runFormat, renderMicro, toList_mk,
    strptimeIsoSeconds_renderMicro d h, strptimeIsoMicroseconds_render d h]

/-! ### The normalized Document model (`onyx.connectors.models.Document`),
restricted to the fields the connectors populate.  `source` is kept as the
attribute name used on `DocumentSource` in each variant. -/

/-- One `Section(link=..., text=...)`. -/
structure DocSection where
  link : String
  text : String
deriving DecidableEq, Repr

/-- The normalized output record. `primary_owners` keeps the `display_name`
of each `BasicExpertInfo`; `metadata` is the dict in insertion order, with
possibly-`None` values represented as `PyVal`. -/
structure Document where
  id : String
  sections : List DocSection
  source : String
  semantic_identifier : String
  doc_updated_at : PyDateTime
  primary_owners : List String
  metadata : List (String × PyVal)
deriving DecidableEq, Repr

/-- A work item's `fields` dict, restricted to the keys the connectors read.
`changedDate` is kept as a raw `PyVal` because the code feeds it to
`strptime` unchecked; the other fields are `Option` values (`None` or a
value of the expected shape).  `createdBy` and `assignedTo` hold the
`displayName` entry of the identity dict. -/
structure WorkItemFields where
  changedDate : PyVal
  description : Option String
  title : Option String
  createdBy : Option String
  state : Option String
  workItemType : Option String
  iterationPath : Option String
  areaPath : Option String
  priority : Option Int
  tags : Option String
  assignedTo : Option String
  systemInfo : Option String
  acceptanceCriteria : Option String
deriving DecidableEq, Repr

/-- A work item: its id, its server-side last-changed time (in days since the
epoch, as the WIQL predicate `[System.ChangedDate] > @today - n` compares at
day granularity), and its REST payload fields. -/
structure AzWorkItem where
  id : Nat
  changedEpochDay : Nat
  fields : WorkItemFields
deriving DecidableEq, Repr

/-- A `GitRepository` record. -/
structure GitRepo where
  id : String
  name : String
  url : String
  creation_date : PyDateTime
deriving DecidableEq, Repr

/-- A `GitItem` from the repository listing (`get_items`). -/
structure GitItemMeta where
  path : String
deriving DecidableEq, Repr

/-- A `GitItem` fetched with `include_content=True`. -/
structure GitItemFull where
  path : String
  content : String
deriving DecidableEq, Repr

/-- A `GitPullRequest` record. -/
structure GitPullRequest where
  url : String
  title : String
  description : Option String
  status : String
  created_by : String
  creation_date : PyDateTime
deriving DecidableEq, Repr

namespace Azdo

/-! Embedding of `backend/onyx/connectors/azuredevops/connector.py`. -/

/-- `_convert_repo_to_document`. -/
def _convert_repo_to_document (repo : GitRepo) : Document :=
  { id := repo.id
  , sections := [⟨repo.url, repo.name⟩]
  , source := "AZUREDEVOPS"
  , semantic_identifier := repo.name
  , doc_updated_at := repo.creation_date
  , primary_owners := []
  , metadata := [("type", .str "Repository")] }

/-- `_convert_pull_request_to_document`. -/
def _convert_pull_request_to_document (pr : GitPullRequest) : Document :=
  { id := pr.url
  , sections := [⟨pr.url, pr.description.getD ""⟩]
  , source := "AZUREDEVOPS"
  , semantic_identifier := pr.title
  , doc_updated_at := pr.creation_date
  , primary_owners := [pr.created_by]
  , metadata := [("state", .str pr.status), ("type", .str "PullRequest")] }

/-- `_convert_workitem_to_document`: `format_date` already returns a
`datetime`, which the next line feeds back into `datetime.strptime`; the
remainder (including the metadata dict whose `state`/`type` values may be
`None`) is written out faithfully but is unreachable. -/
def _convert_workitem_to_document (work_item : AzWorkItem) (base_url : String) :
    Except PyError Document := do
  let work_item_url := base_url ++ "/_workItems/edit/" ++ toString work_item.id
  let changed_date ← format_date work_item.fields.changedDate
  -- `datetime.strptime(changed_date, "%Y-%m-%dT%H:%M:%S.%fZ")` on a datetime
  let date ← datetime_strptime (.dt changed_date) .isoMicroseconds
  let created_by ←
    match work_item.fields.createdBy with
    | some n => Except.ok n
    | none => Except.error .typeError
  Except.ok
    { id := work_item_url
    , sections := [⟨work_item_url, work_item.fields.description.getD ""⟩]
    , source := "AZUREDEVOPS"
    , semantic_identifier := work_item.fields.title.getD "Unnamed"
    , doc_updated_at := date
    , primary_owners := [created_by]
    , metadata :=
        [("state", work_item.fields.state.elim PyVal.pynone PyVal.str),
         ("type", work_item.fields.workItemType.elim PyVal.pynone PyVal.str)] }

/-- `_convert_code_to_document` (this variant: lines 105-125; the
`try/except UnicodeDecodeError` around the attribute access cannot fire for a
string payload and is omitted).  `now` stands for the `datetime.now()` call. -/
def _convert_code_to_document (repo_id : String) (file : GitItemFull)
    (repo_url : String) (project_name : String) (now : PyDateTime) : Document :=
  let file_url :=
    repo_url ++ "/_git/" ++ project_name ++ "?path=" ++ file.path ++ "&version=GBmaster"
  { id := repo_id ++ ":" ++ file.path
  , sections := [⟨file_url, file.content⟩]
  , source := "AZURE_DEVOPS"
  , semantic_identifier := (splitOnChar '/' file.path).getLastD ""
  , doc_updated_at := now
  , primary_owners := []
  , metadata := [("type", .str "CodeFile")] }

end Azdo

namespace AzdoMgmt

/-! Embedding of `backend/onyx/connectors/azuredevops_management/connector.py`. -/

/-- One conditional insertion `if x is not None: metadata[key] = x`. -/
def optEntry (key : String) (o : Option PyVal) : List (String × PyVal) :=
  match o with
  | some v => [(key, v)]
  | none => []

/-- The metadata dict built by the sequence of `if ... is not None` guards in
`_convert_workitem_to_document` (insertion order preserved). -/
def mgmtMetadata (f : WorkItemFields) : List (String × PyVal) :=
  optEntry "state" (f.state.map .str) ++
  optEntry "type" (f.workItemType.map .str) ++
  optEntry "iteration" (f.iterationPath.map .str) ++
  optEntry "area" (f.areaPath.map .str) ++
  optEntry "priority" (f.priority.map .int) ++
  optEntry "tags" (f.tags.map .str) ++
  optEntry "assigned_to" (f.assignedTo.map .str)

/-- `_convert_workitem_to_document` (management variant, lines 61-108).
`fields.get("System.CreatedBy")["displayName"]` raises `TypeError` when the
field is absent (`None["displayName"]`). -/
def _convert_workitem_to_document (work_item : AzWorkItem) (base_url : String) :
    Except PyError Document := do
  let work_item_url := base_url ++ "/_workItems/edit/" ++ toString work_item.id
  let changed_date ← format_date work_item.fields.changedDate
  let created_by ←
    match work_item.fields.createdBy with
    | some n => Except.ok n
    | none => Except.error .typeError
  Except.ok
    { id := work_item_url
    , sections :=
        [⟨work_item_url, work_item.fields.description.getD ""⟩,
         ⟨work_item_url, work_item.fields.systemInfo.getD ""⟩,
         ⟨work_item_url, work_item.fields.acceptanceCriteria.getD ""⟩]
    , source := "AZUREDEVOPSMANAGEMENT"
    , semantic_identifier := "AZDOWorkItem:" ++ toString work_item.id
    , doc_updated_at := changed_date
    , primary_owners := [created_by]
    , metadata := mgmtMetadata work_item.fields }

end AzdoMgmt

namespace AzdoCode

/-! Embedding of `backend/onyx/connectors/azuredevops_code/connector.py`. -/

/-- The `extension_to_language` table. -/
def extension_to_language : List (String × String) :=
  [("py", "Python"), ("js", "JavaScript"), ("ts", "TypeScript"), ("cs", "C#"),
   ("html", "HTML"), ("css", "CSS"), ("json", "JSON"), ("xml", "XML"),
   ("yaml", "YAML"), ("yml", "YAML"), ("sql", "SQL"), ("sh", "Shell"),
   ("bash", "Shell"), ("ps1", "PowerShell"), ("bat", "Batch"), ("cmd", "Batch"),
   ("tf", "Terraform"), ("tfvars", "Terraform"), ("md", "Markdown")]

/-- `_get_language_from_extension`: dict lookup with default `"Unknown"`. -/
def _get_language_from_extension (extension : String) : String :=
  (extension_to_language.lookup extension).getD "Unknown"

/-- `_convert_code_to_document` (code variant, lines 66-81).
`file_path.split(".")[-1].lower()` is the extension; `now` stands for
`datetime.now()`. -/
def _convert_code_to_document (repo_id repo_url repo_name content_string file_path : String)
    (now : PyDateTime) : Document :=
  let extension := ((splitOnChar '.' file_path).getLastD "").toLower
  let language := _get_language_from_extension extension
  let file_url := repo_url ++ "?path=" ++ file_path
  { id := repo_id ++ ":" ++ repo_url ++ ":" ++ file_path
  , sections := [⟨file_url, content_string⟩]
  , source := "AZUREDEVOPSCODE"
  , semantic_identifier := repo_name ++ "/" ++ file_path
  , doc_updated_at := now
  , primary_owners := []
  , metadata := [("type", .str "CodeFile"), ("language", .str language),
                 ("repo", .str repo_name)] }

/-- `_convert_repo_to_document` (code variant, lines 83-93). -/
def _convert_repo_to_document (repo_id repo_url repo_name : String)
    (readme_content : Option String) (now : PyDateTime) : Document :=
  { id := repo_id ++ ":" ++ repo_url
  , sections := [⟨repo_url, readme_content.getD ""⟩]
  , source := "AZUREDEVOPSCODE"
  , semantic_identifier := repo_name
  , doc_updated_at := now
  , primary_owners := []
  , metadata := [("type", .str "CodeRepo"), ("repo", .str repo_name)] }

end AzdoCode

namespace Azdo

/-- Observable events of `AzureDevopsConnector._fetch_from_azuredevops`:
remote calls and generator yields, in order. -/
inductive AzdoEvent where
  | getRepository
  | getItems
  | getItem (path : String)
  | getPullRequests
  | wiqlQuery (lookbackDays : Nat)
  | getWorkItems (ids : List Nat)
  | yieldDoc (d : Document)
  | yieldBatch (b : List Document)
deriving DecidableEq, Repr

/-- The remote state the connector runs against: the repository record, the
item listing, the per-path item fetch (`none` models a failed request), the
pull requests, the project's work items, and today's date (in epoch days, for
the WIQL `@today`). -/
structure AzdoWorld where
  repo : GitRepo
  items : List GitItemMeta
  itemFetch : String → Option GitItemFull
  prs : List GitPullRequest
  workItems : List AzWorkItem
  todayEpochDay : Nat

/-- `AzureDevopsConnector` state after `__init__` (and `load_credentials`,
which sets `azdo_client` and `base_url`). -/
structure AzdoConnector where
  project_name : String
  repo_name : String
  batch_size : Nat
  state_filter : String
  include_prs : Bool
  include_workitems : Bool
  include_code_files : Bool
  azdo_client : Option Unit
  base_url : String

/-- A generator run: the events so far, and `some e` if an exception escaped. -/
def TraceM := List AzdoEvent × Option PyError

/-- Sequencing of generator segments: a raised exception stops the run. -/
def seqT (a : List AzdoEvent × Option PyError) (b : Unit → List AzdoEvent × Option PyError) :
    List AzdoEvent × Option PyError :=
  match a with
  | (evs, some e) => (evs, some e)
  | (evs, none) =>
    let r := b ()
    (evs ++ r.1, r.2)

/-- The inner `for item in item_batch` loop of the code segment: fetch each
item with content (`get_item`) and convert it; a failed fetch raises. -/
def fetchBatchItems (c : AzdoConnector) (w : AzdoWorld) (now : PyDateTime) :
    List GitItemMeta → List AzdoEvent × Except PyError (List Document)
  | [] => ([], .ok [])
  | item :: rest =>
    match w.itemFetch item.path with
    | none => ([.getItem item.path], .error .requestError)
    | some code_file =>
      match fetchBatchItems c w now rest with
      | (evs, .error e) => (.getItem item.path :: evs, .error e)
      | (evs, .ok docs) =>
        (.getItem item.path :: evs,
         .ok (_convert_code_to_document w.repo.id code_file c.base_url c.project_name now
              :: docs))

/-- The `for item_batch in _batch_azuredevops_objects(items, ...)` loop:
each batch's documents are yielded if non-empty (`if code_doc_batch:`). -/
def codeBatchLoop (c : AzdoConnector) (w : AzdoWorld) (now : PyDateTime) :
    List (List GitItemMeta) → List AzdoEvent × Option PyError
  | [] => ([], none)
  | b :: rest =>
    match fetchBatchItems c w now b with
    | (evs, .error e) => (evs, some e)
    | (evs, .ok docs) =>
      let evs2 := if docs.isEmpty then evs else evs ++ [.yieldBatch docs]
      let r := codeBatchLoop c w now rest
      (evs2 ++ r.1, r.2)

/-- The code segment (source lines 159-179).  In the source it is guarded by
a literal `if True:`, so it runs whatever `include_code_files` is. -/
def codeSegment (c : AzdoConnector) (w : AzdoWorld) (now : PyDateTime) :
    List AzdoEvent × Option PyError :=
  let r := codeBatchLoop c w now (batch_azuredevops_objects w.items c.batch_size)
  ([.getRepository, .yieldDoc (_convert_repo_to_document w.repo), .getItems] ++ r.1, r.2)

/-- The `for pr_batch ...` loop of the PR segment: each batch is converted
and yielded (unconditionally). -/
def prBatchLoop : List (List GitPullRequest) → List AzdoEvent
  | [] => []
  | b :: rest => .yieldBatch (b.map _convert_pull_request_to_document) :: prBatchLoop rest

/-- The pull-request segment (source lines 181-191), guarded by
`if self.include_prs:`. -/
def prSegment (c : AzdoConnector) (w : AzdoWorld) : List AzdoEvent × Option PyError :=
  if c.include_prs then
    ([.getRepository, .getPullRequests] ++
       prBatchLoop (batch_azuredevops_objects w.prs c.batch_size), none)
  else ([], none)

/-- The `for work_item in workitem_batch` conversion loop: the first
conversion error aborts before the batch is yielded. -/
def wiConvertAll (c : AzdoConnector) : List AzWorkItem → Except PyError (List Document)
  | [] => .ok []
  | wi :: rest =>
    match _convert_workitem_to_document wi c.base_url with
    | .error e => .error e
    | .ok d =>
      match wiConvertAll c rest with
      | .error e => .error e
      | .ok ds => .ok (d :: ds)

/-- The `for workitem_batch ...` loop of the work-item segment. -/
def wiBatchLoop (c : AzdoConnector) : List (List AzWorkItem) → List AzdoEvent × Option PyError
  | [] => ([], none)
  | b :: rest =>
    match wiConvertAll c b with
    | .error e => ([], some e)
    | .ok docs =>
      let r := wiBatchLoop c rest
      (.yieldBatch docs :: r.1, r.2)

/-- The work-item segment (source lines 193-212), guarded by
`if self.include_workitems:`.  The WIQL query selects work items with
`[System.ChangedDate] > @today - 180` (a fixed 180-day lookback); the selected
ids are then detail-fetched in slices of 200 (the `range(0, len, 200)` loop,
which produces the same slices as the batching helper). -/
def wiSegment (c : AzdoConnector) (w : AzdoWorld) : List AzdoEvent × Option PyError :=
  if c.include_workitems then
    let selected := w.workItems.filter
      (fun wi => decide (w.todayEpochDay < wi.changedEpochDay + 180))
    let ids := selected.map (·.id)
    let fetchEvents := (batch_azuredevops_objects ids 200).map AzdoEvent.getWorkItems
    let r := wiBatchLoop c (batch_azuredevops_objects selected c.batch_size)
    (AzdoEvent.wiqlQuery 180 :: fetchEvents ++ r.1, r.2)
  else ([], none)

/-- `_fetch_from_azuredevops` (source lines 154-212): credential check, then
code, pull-request and work-item segments in that order. -/
def _fetch_from_azuredevops (c : AzdoConnector) (w : AzdoWorld) (now : PyDateTime) :
    List AzdoEvent × Option PyError :=
  match c.azdo_client with
  | none => ([], some .missingCredential)
  | some _ =>
    seqT (codeSegment c w now) fun _ =>
      seqT (prSegment c w) fun _ =>
        wiSegment c w

/-- `load_from_state`. -/
def load_from_state (c : AzdoConnector) (w : AzdoWorld) (now : PyDateTime) :
    List AzdoEvent × Option PyError :=
  _fetch_from_azuredevops c w now

set_option linter.unusedVariables false in
/-- `poll_source(start, end)`: the window is accepted and discarded
(`_fetch_from_azuredevops` takes no window argument in this variant). -/
def poll_source (c : AzdoConnector) (w : AzdoWorld) (now : PyDateTime)
    (startT endT : Rat) : List AzdoEvent × Option PyError :=
  _fetch_from_azuredevops c w now

end Azdo

/-! ### Embedding of `backend/onyx/connectors/azuredevops_code/connector.py`
and the change-detection slice of
`backend/onyx/connectors/azuredevops_codebase/connector.py`. -/

/-- `os.path` basename of a `/`-separated path. -/
def pathBasename (p : String) : String := (splitOnChar '/' p).getLastD ""

/-- Index of the last `'.'` in a character list, if any. -/
def lastDotIdx (cs : List Char) : Option Nat :=
  match cs.reverse.findIdx? (· = '.') with
  | some j => some (cs.length - 1 - j)
  | none => none

/-- `os.path.splitext(p)[1]`: the extension (with its dot) of the basename,
empty when the only dots are leading ones. -/
def splitextExt (p : String) : String :=
  let name := pathBasename p
  let cs := name.toList
  match lastDotIdx cs with
  | none => ""
  | some i => if (cs.take i).all (· = '.') then "" else String.mk (cs.drop i)

namespace AzdoCode

/-- `__init__`'s normalization of the `extensions` argument:
`f".{ext.lower()}" if not ext.startswith(".") else ext.lower()`. -/
def normalizeExtensions (exts : List String) : List String :=
  exts.map fun ext => if ext.startsWith "." then ext.toLower else "." ++ ext.toLower

/-- `get_repo_files_list`: walk the checkout and keep files whose
`os.path.splitext` extension is in `self.extensions`. `files` is the
`os.walk` result as full paths. -/
def get_repo_files_list (files : List String) (extensions : List String) : List String :=
  files.filter (fun f => extensions.contains (splitextExt f))

/-- Observable events of `AzureDevopsCodeConnector._fetch_from_azuredevops`. -/
inductive CodeEvent where
  | getRepository
  | procGitConfig
  | procCredApprove
  | procClone
  | procPull
  | procGitLog (since untilT : Rat)
  | openFile (path : String)
  | yieldDoc (d : Document)
  | yieldBatch (b : List Document)
deriving DecidableEq, Repr

/-- The state this connector runs against: the repository record, whether the
checkout directory already exists, the walked file list (full paths under the
checkout), the files named by `git log --name-only` for the window, and the
filesystem reads (`none` models an `OSError` from `open`; decoding never
raises because the code opens with `errors="ignore"`). -/
structure CodeWorld where
  repo : GitRepo
  checkoutExists : Bool
  files : List String
  changedFiles : List String
  readFile : String → Option String

/-- `AzureDevopsCodeConnector` state after `__init__` and
`load_credentials`; `extensions` is already normalized by `__init__`. -/
structure CodeConnector where
  repo_name : String
  project_name : String
  branch : String
  extensions : List String
  batch_size : Nat
  azdo_client : Option Unit
  base_url : String

/-- Python `str.removeprefix`. -/
def removeStart (s pre : String) : String :=
  if s.startsWith pre then s.drop pre.length else s

/-- The inner `for item in item_batch` loop of `process_files`: open each
file (`errors="ignore"`, so decoding never raises) and convert it; an
`OSError` from `open` aborts. -/
def processOneBatch (c : CodeConnector) (w : CodeWorld) (now : PyDateTime)
    (repo_url : String) (repo_path : String) :
    List String → List CodeEvent × Except PyError (List Document)
  | [] => ([], .ok [])
  | item :: rest =>
    match w.readFile item with
    | none => ([.openFile item], .error .osError)
    | some file_content =>
      match processOneBatch c w now repo_url repo_path rest with
      | (evs, .error e) => (.openFile item :: evs, .error e)
      | (evs, .ok docs) =>
        (.openFile item :: evs,
         .ok (_convert_code_to_document w.repo.id repo_url c.repo_name file_content
                (removeStart item repo_path) now :: docs))

/-- `process_files`: convert and yield per batch (`if code_doc_batch:`);
an unreadable file aborts the run. -/
def process_files (c : CodeConnector) (w : CodeWorld) (now : PyDateTime) (repo_url : String)
    (repo_path : String) :
    List (List String) → List CodeEvent × Option PyError
  | [] => ([], none)
  | b :: rest =>
    match processOneBatch c w now repo_url repo_path b with
    | (evs, .error e) => (evs, some e)
    | (evs, .ok docs) =>
      let evs2 := if docs.isEmpty then evs else evs ++ [.yieldBatch docs]
      let r := process_files c w now repo_url repo_path rest
      (evs2 ++ r.1, r.2)

/-- Uppercase hex digit. -/
def hexUpper (n : Nat) : Char :=
  if n < 10 then digitChar n else Char.ofNat (55 + n)

/-- `urllib.parse.quote` on one character (default `safe='/'`); multi-byte
percent-encoding of non-ASCII characters is not modelled (no claim depends
on it). -/
def urlQuoteChar (c : Char) : List Char :=
  if c.isAlphanum || c = '_' || c = '.' || c = '-' || c = '~' || c = '/' then [c]
  else if c.toNat < 128 then ['%', hexUpper (c.toNat / 16), hexUpper (c.toNat % 16)]
  else [c]

/-- `urllib.parse.quote`. -/
def urlQuote (s : String) : String := String.mk (s.toList.flatMap urlQuoteChar)

/-- The tail of `_fetch_from_azuredevops` after change detection (source
lines 163-168): find a readme in the (possibly filtered) file list, yield the
repository document (`yield from process_repo`, a one-element list, hence a
bare document), then `yield from process_files`. -/
def fetchTail (c : CodeConnector) (w : CodeWorld) (now : PyDateTime)
    (repo_url repo_path : String) (evs : List CodeEvent) (file_list : List String) :
    List CodeEvent × Option PyError :=
  let readme_path := file_list.find? (fun f => f.toLower.endsWith "readme.md")
  match readme_path with
  | some rp =>
    match w.readFile rp with
    | none => (evs ++ [.openFile rp], some .osError)
    | some content =>
      let repo_doc := _convert_repo_to_document w.repo.id w.repo.url c.repo_name
        (some content) now
      let r := process_files c w now repo_url repo_path
        (batch_azuredevops_objects file_list c.batch_size)
      (evs ++ [.openFile rp, .yieldDoc repo_doc] ++ r.1, r.2)
  | none =>
    let repo_doc := _convert_repo_to_document w.repo.id w.repo.url c.repo_name none now
    let r := process_files c w now repo_url repo_path
      (batch_azuredevops_objects file_list c.batch_size)
    (evs ++ [.yieldDoc repo_doc] ++ r.1, r.2)

/-- `_fetch_from_azuredevops` (code variant, source lines 119-168):
credential check; git credential setup and clone-or-pull; file listing; then
`if start > 0.1:` — which raises `TypeError` when `start` is `None`, i.e. on
every full load — optionally filtering to the files named by
`git log --since --until`; then readme, repository document and file batches. -/
def _fetch_from_azuredevops (c : CodeConnector) (w : CodeWorld) (now : PyDateTime)
    (startT endT : Option Rat) : List CodeEvent × Option PyError :=
  match c.azdo_client with
  | none => ([], some .missingCredential)
  | some _ =>
    let evs0 : List CodeEvent :=
      [.getRepository, .procGitConfig, .procCredApprove,
       if w.checkoutExists then .procPull else .procClone]
    let file_list := get_repo_files_list w.files c.extensions
    let repo_path := "/git/azuredevops/" ++ c.repo_name
    let repo_url := c.base_url ++ "/" ++ c.project_name ++ "/_git/" ++ urlQuote c.repo_name
    match startT with
    | none => (evs0, some .typeError)
    | some s =>
      if s > (1 : Rat) / 10 then
        match endT with
        | none => (evs0, some .typeError)
        | some e =>
          let changed := file_list.filter (w.changedFiles.contains ·)
          fetchTail c w now repo_url repo_path (evs0 ++ [.procGitLog s e]) changed
      else
        fetchTail c w now repo_url repo_path evs0 file_list

/-- `load_from_state`: `_fetch_from_azuredevops(start=None, end=None)`. -/
def load_from_state (c : CodeConnector) (w : CodeWorld) (now : PyDateTime) :
    List CodeEvent × Option PyError :=
  _fetch_from_azuredevops c w now none none

/-- `poll_source(start, end)`. -/
def poll_source (c : CodeConnector) (w : CodeWorld) (now : PyDateTime)
    (startT endT : Rat) : List CodeEvent × Option PyError :=
  _fetch_from_azuredevops c w now (some startT) (some endT)

end AzdoCode

namespace AzdoCodebase

/-! Change-detection slice of
`backend/onyx/connectors/azuredevops_codebase/connector.py` (lines 145-158). -/

/-- `get_repo_files_list` (codebase variant; extensions are stored as given,
without the normalization the code variant applies). -/
def get_repo_files_list (files : List String) (extensions : List String) : List String :=
  files.filter (fun f => extensions.contains (splitextExt f))

/-- The file-selection logic of `_fetch_from_azuredevops` (lines 145-158):
`if not first_clone and start is not None and end is not None:` filter to the
changed files, else the full listing. -/
def selectFiles (first_clone : Bool) (file_list changedFiles : List String)
    (startT endT : Option Rat) : List String :=
  if !first_clone && startT.isSome && endT.isSome then
    file_list.filter (changedFiles.contains ·)
  else file_list

end AzdoCodebase

/-! ## Claim theorems -/

/-- C1: for every batch size `n ≥ 1` and input `xs`, `_batch_azuredevops_objects`
yields `ceil(len(xs)/n)` batches; concatenating them reproduces the input in
order; every batch is non-empty; every batch but the last has size `n` and the
last has size `len(xs) mod n` (or `n` when the remainder is zero); and an empty
input yields zero batches. -/
theorem claim_batcher_correct {α : Type} (xs : List α) (n : Nat) (h : 1 ≤ n) :
    (batch_azuredevops_objects xs n).flatten = xs
  ∧ (batch_azuredevops_objects xs n).length = (xs.length + n - 1) / n
  ∧ (∀ b ∈ batch_azuredevops_objects xs n, b ≠ [])
  ∧ (∀ b ∈ (batch_azuredevops_objects xs n).dropLast, b.length = n)
  ∧ (xs ≠ [] → ((batch_azuredevops_objects xs n).getLastD []).length
        = if xs.length % n = 0 then n else xs.length % n)
  ∧ batch_azuredevops_objects ([] : List α) n = [] :=
  have hn : n ≠ 0 := by omega
  ⟨batch_flatten xs n hn, batch_count xs n hn, batch_mem_ne_nil xs n hn,
   batch_dropLast_full xs n hn, fun hxs => batch_last_size xs n hn hxs, batch_nil n⟩

/-- Witness for C1 at `xs = [1,2,3,4,5]`, `n = 2`. -/
theorem claim_batcher_correct_witness :
    1 ≤ 2
  ∧ ((batch_azuredevops_objects [1, 2, 3, 4, 5] 2).flatten = [1, 2, 3, 4, 5]
  ∧ (batch_azuredevops_objects [1, 2, 3, 4, 5] 2).length = ([1, 2, 3, 4, 5].length + 2 - 1) / 2
  ∧ (∀ b ∈ batch_azuredevops_objects [1, 2, 3, 4, 5] 2, b ≠ [])
  ∧ (∀ b ∈ (batch_azuredevops_objects [1, 2, 3, 4, 5] 2).dropLast, b.length = 2)
  ∧ ([1, 2, 3, 4, 5] ≠ [] →
      ((batch_azuredevops_objects [1, 2, 3, 4, 5] 2).getLastD []).length
        = if [1, 2, 3, 4, 5].length % 2 = 0 then 2 else [1, 2, 3, 4, 5].length % 2)
  ∧ batch_azuredevops_objects ([] : List Nat) 2 = []) :=
  ⟨by decide, claim_batcher_correct [1, 2, 3, 4, 5] 2 (by decide)⟩

/-- C4: `format_date` accepts both `"%Y-%m-%dT%H:%M:%SZ"` and
`"%Y-%m-%dT%H:%M:%S.%fZ"` renderings of any valid datetime; the two parse
results agree once truncated to seconds; a string matching neither format
yields the `ValueError` (never a default value); and every successful parse
comes from one of the two formats. -/
theorem claim_timestamp_parsing (d : PyDateTime) (h : pyDateTimeValid d = true) :
    format_date (.str (renderBasic d)) = .ok (truncSec d)
  ∧ format_date (.str (renderMicro d)) = .ok d
  ∧ (∀ d1 d2, format_date (.str (renderBasic d)) = .ok d1 →
      format_date (.str (renderMicro d)) = .ok d2 → truncSec d1 = truncSec d2)
  ∧ (∀ s : String, strptimeIsoSeconds s.toList = none →
      strptimeIsoMicroseconds s.toList = none →
      format_date (.str s)
        = .error (.valueError ("Time data " ++ s ++ " does not match known formats")))
  ∧ (∀ (s : String) (dt : PyDateTime), format_date (.str s) = .ok dt →
      strptimeIsoSeconds s.toList = some dt ∨ strptimeIsoMicroseconds s.toList = some dt) := by
  refine ⟨format_date_renderBasic d h, format_date_renderMicro d h, ?_, ?_, ?_⟩
  · intro d1 d2 h1 h2
    rw [format_date_renderBasic d h] at h1
    rw [format_date_renderMicro d h] at h2
    cases h1; cases h2
    rfl
  · intro s h1 h2
    simp only [format_date, datetime_strptime, runFormat, timeDataMsg, h1, h2]
  · intro s dt hok
    simp only [format_date, datetime_strptime, runFormat] at hok
    cases h1 : strptimeIsoSeconds s.toList with
    | some d1 =>
      rw [h1] at hok
      cases hok
      exact Or.inl rfl
    | none =>
      rw [h1] at hok
      cases h2 : strptimeIsoMicroseconds s.toList with
      | some d2 =>
        rw [h2] at hok
        cases hok
        exact Or.inr rfl
      | none =>
        rw [h2] at hok
        cases hok

/-- Witness for C4 at `2024-01-02T03:04:05.123456`. -/
theorem claim_timestamp_parsing_witness :
    pyDateTimeValid ⟨2024, 1, 2, 3, 4, 5, 123456⟩ = true
  ∧ (format_date (.str (renderBasic ⟨2024, 1, 2, 3, 4, 5, 123456⟩))
        = .ok (truncSec ⟨2024, 1, 2, 3, 4, 5, 123456⟩)
  ∧ format_date (.str (renderMicro ⟨2024, 1, 2, 3, 4, 5, 123456⟩))
        = .ok ⟨2024, 1, 2, 3, 4, 5, 123456⟩
  ∧ (∀ d1 d2, format_date (.str (renderBasic ⟨2024, 1, 2, 3, 4, 5, 123456⟩)) = .ok d1 →
      format_date (.str (renderMicro ⟨2024, 1, 2, 3, 4, 5, 123456⟩)) = .ok d2 →
      truncSec d1 = truncSec d2)
  ∧ (∀ s : String, strptimeIsoSeconds s.toList = none →
      strptimeIsoMicroseconds s.toList = none →
      format_date (.str s)
        = .error (.valueError ("Time data " ++ s ++ " does not match known formats")))
  ∧ (∀ (s : String) (dt : PyDateTime), format_date (.str s) = .ok dt →
      strptimeIsoSeconds s.toList = some dt ∨ strptimeIsoMicroseconds s.toList = some dt)) :=
  ⟨by decide, claim_timestamp_parsing ⟨2024, 1, 2, 3, 4, 5, 123456⟩ (by decide)⟩

/-- Helper: the work-item converter of the `azuredevops` variant always
raises: every path through it ends in an error. -/
theorem azdo_convert_workitem_is_error (wi : AzWorkItem) (url : String) :
    ∃ e, Azdo._convert_workitem_to_document wi url = .error e := by
  unfold Azdo._convert_workitem_to_document
  cases hfd : format_date wi.fields.changedDate with
  | error e => exact ⟨e, by simp [hfd, bind, Except.bind]⟩
  | ok changed_date =>
    exact ⟨.typeError, by simp [hfd, bind, Except.bind, datetime_strptime]⟩

/-- Helper: a run of the work-item batch loop over non-empty batches yields
no events (the first conversion of the first batch raises before any yield). -/
theorem wiBatchLoop_events_nil (c : Azdo.AzdoConnector) (bs : List (List AzWorkItem))
    (hb : ∀ b ∈ bs, b ≠ []) : (Azdo.wiBatchLoop c bs).1 = [] := by
  match bs with
  | [] => rfl
  | b :: rest =>
    match b, hb b (List.mem_cons_self b rest) with
    | wi :: tl, _ =>
      obtain ⟨e, he⟩ := azdo_convert_workitem_is_error wi c.base_url
      simp [Azdo.wiBatchLoop, Azdo.wiConvertAll, he]

/-- C10: in the `AzureDevopsConnector` variant, whenever a work item's
`System.ChangedDate` string matches either supported format,
`_convert_workitem_to_document` raises `TypeError` (`format_date` already
returned a `datetime`, which is fed back into `datetime.strptime`); the
converter never returns a `Document` at all, and consequently the work-item
segment never yields a batch. -/
theorem claim_azdo_workitem_typeerror :
    (∀ (wi : AzWorkItem) (url : String) (s : String),
        wi.fields.changedDate = .str s →
        (strptimeIsoSeconds s.toList ≠ none ∨ strptimeIsoMicroseconds s.toList ≠ none) →
        Azdo._convert_workitem_to_document wi url = .error .typeError)
  ∧ (∀ (wi : AzWorkItem) (url : String) (d : Document),
        Azdo._convert_workitem_to_document wi url ≠ .ok d)
  ∧ (∀ (c : Azdo.AzdoConnector) (w : Azdo.AzdoWorld) (b : List Document),
        Azdo.AzdoEvent.yieldBatch b ∉ (Azdo.wiSegment c w).1) := by
  refine ⟨?_, ?_, ?_⟩
  · intro wi url s hs hmatch
    have hok : ∃ dt, format_date wi.fields.changedDate = .ok dt := by
      rw [hs]
      unfold format_date datetime_strptime runFormat
      cases h1 : strptimeIsoSeconds s.toList with
      | some d1 =>
        simp only [String.toList] at h1
        exact ⟨d1, by simp [h1]⟩
      | none =>
        cases h2 : strptimeIsoMicroseconds s.toList with
        | some d2 =>
          simp only [String.toList] at h1 h2
          exact ⟨d2, by simp [h1, h2]⟩
        | none =>
          rcases hmatch with hm | hm
          · exact absurd h1 hm
          · exact absurd h2 hm
    obtain ⟨dt, hdt⟩ := hok
    unfold Azdo._convert_workitem_to_document
    simp [hdt, bind, Except.bind, datetime_strptime]
  · intro wi url d
    obtain ⟨e, he⟩ := azdo_convert_workitem_is_error wi url
    simp [he]
  · intro c w b
    unfold Azdo.wiSegment
    by_cases hw : c.include_workitems
    · simp only [if_pos hw]
      intro hmem
      have hnil := wiBatchLoop_events_nil c
        (batch_azuredevops_objects
          (w.workItems.filter (fun wi => decide (w.todayEpochDay < wi.changedEpochDay + 180)))
          c.batch_size)
        (by
          intro b2 hb2
          by_cases hbs : c.batch_size = 0
          · rw [hbs, batch_zero_size] at hb2
            exact absurd hb2 (List.not_mem_nil b2)
          · exact batch_mem_ne_nil _ _ hbs b2 hb2)
      rw [hnil] at hmem
      simp at hmem
    · simp only [if_neg hw]
      exact List.not_mem_nil _

/-- An example work item whose `System.ChangedDate` matches the first format. -/
def exampleWorkItemFields : WorkItemFields :=
  { changedDate := .str "2024-01-02T03:04:05Z"
  , description := some "desc"
  , title := some "Fix bug"
  , createdBy := some "Alice"
  , state := some "Active"
  , workItemType := some "Bug"
  , iterationPath := none
  , areaPath := none
  , priority := none
  , tags := none
  , assignedTo := none
  , systemInfo := none
  , acceptanceCriteria := none }

/-- An example work item. -/
def exampleWorkItem : AzWorkItem :=
  { id := 7, changedEpochDay := 19825, fields := exampleWorkItemFields }

/-- Witness for C10: the converter raises `TypeError` on `exampleWorkItem`. -/
theorem claim_azdo_workitem_typeerror_witness :
    exampleWorkItem.fields.changedDate = .str "2024-01-02T03:04:05Z"
  ∧ (strptimeIsoSeconds ("2024-01-02T03:04:05Z" : String).toList ≠ none
      ∨ strptimeIsoMicroseconds ("2024-01-02T03:04:05Z" : String).toList ≠ none)
  ∧ Azdo._convert_workitem_to_document exampleWorkItem "https://dev.azure.com/org"
      = .error .typeError :=
  ⟨rfl, Or.inl (by decide),
   claim_azdo_workitem_typeerror.1 exampleWorkItem "https://dev.azure.com/org"
     "2024-01-02T03:04:05Z" rfl (Or.inl (by decide))⟩

/-- Membership in one conditional metadata insertion. -/
theorem mem_optEntry {k key : String} {v : PyVal} {o : Option PyVal} :
    (k, v) ∈ AzdoMgmt.optEntry key o ↔ k = key ∧ o = some v := by
  cases o <;> simp [AzdoMgmt.optEntry, eq_comm]

/-- Inversion: a successful management conversion determines the document. -/
theorem mgmt_convert_ok_metadata (wi : AzWorkItem) (url : String) (doc : Document)
    (h : AzdoMgmt._convert_workitem_to_document wi url = .ok doc) :
    doc.metadata = AzdoMgmt.mgmtMetadata wi.fields := by
  unfold AzdoMgmt._convert_workitem_to_document at h
  cases hfd : format_date wi.fields.changedDate with
  | error e => rw [hfd] at h; simp [bind, Except.bind] at h
  | ok cd =>
    rw [hfd] at h
    cases hcb : wi.fields.createdBy with
    | none => rw [hcb] at h; simp [bind, Except.bind] at h
    | some nm =>
      rw [hcb] at h
      simp only [bind, Except.bind, Except.ok.injEq] at h
      rw [← h]

/-- C5: in the management variant, a converted work item's metadata has a key
exactly when the corresponding source field is non-null, and no key ever
carries a null value (in particular, no `AssignedTo` field means no
`assigned_to` key). -/
theorem claim_metadata_omission (wi : AzWorkItem) (url : String) (doc : Document)
    (h : AzdoMgmt._convert_workitem_to_document wi url = .ok doc) :
    (∀ k v, (k, v) ∈ doc.metadata → v ≠ PyVal.pynone)
  ∧ ((∃ v, ("assigned_to", v) ∈ doc.metadata) ↔ wi.fields.assignedTo ≠ none)
  ∧ ((∃ v, ("state", v) ∈ doc.metadata) ↔ wi.fields.state ≠ none)
  ∧ ((∃ v, ("type", v) ∈ doc.metadata) ↔ wi.fields.workItemType ≠ none)
  ∧ ((∃ v, ("iteration", v) ∈ doc.metadata) ↔ wi.fields.iterationPath ≠ none)
  ∧ ((∃ v, ("area", v) ∈ doc.metadata) ↔ wi.fields.areaPath ≠ none)
  ∧ ((∃ v, ("priority", v) ∈ doc.metadata) ↔ wi.fields.priority ≠ none)
  ∧ ((∃ v, ("tags", v) ∈ doc.metadata) ↔ wi.fields.tags ≠ none) := by
  have hmeta := mgmt_convert_ok_metadata wi url doc h
  rw [hmeta]
  refine ⟨?_, ?_, ?_, ?_, ?_, ?_, ?_, ?_⟩
  · intro k v hkv hv
    subst hv
    simp only [AzdoMgmt.mgmtMetadata, List.mem_append, mem_optEntry,
      Option.map_eq_some'] at hkv
    simp at hkv
  all_goals
    simp only [AzdoMgmt.mgmtMetadata, List.mem_append, mem_optEntry,
      Option.map_eq_some', Option.ne_none_iff_exists']
    simp
    exact ⟨fun h2 => by obtain ⟨v, a, ha, -⟩ := h2; exact ⟨a, ha⟩,
           fun h2 => by obtain ⟨x, hx⟩ := h2; exact ⟨_, x, hx, rfl⟩⟩

/-- Decidable equality for `Except` results (for concrete evaluations). -/
instance exceptDecEq {e a : Type} [DecidableEq e] [DecidableEq a] :
    DecidableEq (Except e a)
  | .error e1, .error e2 =>
    if h : e1 = e2 then isTrue (by rw [h])
    else isFalse (by intro hc; cases hc; exact h rfl)
  | .error _, .ok _ => isFalse (by intro hc; cases hc)
  | .ok _, .error _ => isFalse (by intro hc; cases hc)
  | .ok a1, .ok a2 =>
    if h : a1 = a2 then isTrue (by rw [h])
    else isFalse (by intro hc; cases hc; exact h rfl)

/-- The document produced from `exampleWorkItem` by the management variant. -/
def exampleMgmtDoc : Document :=
  { id := "https://x/_workItems/edit/7"
  , sections :=
      [⟨"https://x/_workItems/edit/7", "desc"⟩,
       ⟨"https://x/_workItems/edit/7", ""⟩,
       ⟨"https://x/_workItems/edit/7", ""⟩]
  , source := "AZUREDEVOPSMANAGEMENT"
  , semantic_identifier := "AZDOWorkItem:7"
  , doc_updated_at := ⟨2024, 1, 2, 3, 4, 5, 0⟩
  , primary_owners := ["Alice"]
  , metadata := [("state", .str "Active"), ("type", .str "Bug")] }

/-- Witness for C5: `exampleWorkItem` (which has no `AssignedTo`) converts
successfully and its metadata has no `assigned_to` key and no null values. -/
theorem claim_metadata_omission_witness :
    AzdoMgmt._convert_workitem_to_document exampleWorkItem "https://x"
      = .ok exampleMgmtDoc
  ∧ ((∀ k v, (k, v) ∈ exampleMgmtDoc.metadata → v ≠ PyVal.pynone)
  ∧ ((∃ v, ("assigned_to", v) ∈ exampleMgmtDoc.metadata)
        ↔ exampleWorkItem.fields.assignedTo ≠ none)
  ∧ ((∃ v, ("state", v) ∈ exampleMgmtDoc.metadata)
        ↔ exampleWorkItem.fields.state ≠ none)
  ∧ ((∃ v, ("type", v) ∈ exampleMgmtDoc.metadata)
        ↔ exampleWorkItem.fields.workItemType ≠ none)
  ∧ ((∃ v, ("iteration", v) ∈ exampleMgmtDoc.metadata)
        ↔ exampleWorkItem.fields.iterationPath ≠ none)
  ∧ ((∃ v, ("area", v) ∈ exampleMgmtDoc.metadata)
        ↔ exampleWorkItem.fields.areaPath ≠ none)
  ∧ ((∃ v, ("priority", v) ∈ exampleMgmtDoc.metadata)
        ↔ exampleWorkItem.fields.priority ≠ none)
  ∧ ((∃ v, ("tags", v) ∈ exampleMgmtDoc.metadata)
        ↔ exampleWorkItem.fields.tags ≠ none)) :=
  ⟨by decide,
   claim_metadata_omission exampleWorkItem "https://x" exampleMgmtDoc (by decide)⟩

/-- Inversion of a successful management conversion: the exact document. -/
theorem mgmt_convert_ok_shape (wi : AzWorkItem) (url : String) (doc : Document)
    (h : AzdoMgmt._convert_workitem_to_document wi url = .ok doc) :
    ∃ cd nm, format_date wi.fields.changedDate = .ok cd
      ∧ wi.fields.createdBy = some nm
      ∧ doc =
        { id := url ++ "/_workItems/edit/" ++ toString wi.id
        , sections :=
            [⟨url ++ "/_workItems/edit/" ++ toString wi.id, wi.fields.description.getD ""⟩,
             ⟨url ++ "/_workItems/edit/" ++ toString wi.id, wi.fields.systemInfo.getD ""⟩,
             ⟨url ++ "/_workItems/edit/" ++ toString wi.id,
              wi.fields.acceptanceCriteria.getD ""⟩]
        , source := "AZUREDEVOPSMANAGEMENT"
        , semantic_identifier := "AZDOWorkItem:" ++ toString wi.id
        , doc_updated_at := cd
        , primary_owners := [nm]
        , metadata := AzdoMgmt.mgmtMetadata wi.fields } := by
  unfold AzdoMgmt._convert_workitem_to_document at h
  cases hfd : format_date wi.fields.changedDate with
  | error e => rw [hfd] at h; simp [bind, Except.bind] at h
  | ok cd =>
    rw [hfd] at h
    cases hcb : wi.fields.createdBy with
    | none => rw [hcb] at h; simp [bind, Except.bind] at h
    | some nm =>
      rw [hcb] at h
      simp only [bind, Except.bind, Except.ok.injEq] at h
      exact ⟨cd, nm, rfl, rfl, h.symm⟩

/-- C9: normalization is idempotent on identity.  For code files, two
normalizations of the same unchanged entity differ at most in
`doc_updated_at` (ingestion time, since code files have no native update
time), and the id never depends on the (mutable) file content.  For work
items (management variant), conversion is fully deterministic — the
timestamp comes from the entity's own `System.ChangedDate` — and the id
depends only on the work item's id field. -/
theorem claim_normalization_idempotent :
    (∀ (rid rurl rname c path : String) (n1 n2 : PyDateTime),
        AzdoCode._convert_code_to_document rid rurl rname c path n1
          = { AzdoCode._convert_code_to_document rid rurl rname c path n2 with
              doc_updated_at := n1 })
  ∧ (∀ (rid rurl rname c1 c2 path : String) (now : PyDateTime),
        (AzdoCode._convert_code_to_document rid rurl rname c1 path now).id
          = (AzdoCode._convert_code_to_document rid rurl rname c2 path now).id)
  ∧ (∀ (wi : AzWorkItem) (url : String) (d1 d2 : Document),
        AzdoMgmt._convert_workitem_to_document wi url = .ok d1 →
        AzdoMgmt._convert_workitem_to_document wi url = .ok d2 → d1 = d2)
  ∧ (∀ (wi : AzWorkItem) (url : String) (d : Document),
        AzdoMgmt._convert_workitem_to_document wi url = .ok d →
        format_date wi.fields.changedDate = .ok d.doc_updated_at)
  ∧ (∀ (wi1 wi2 : AzWorkItem) (url : String) (d1 d2 : Document),
        wi1.id = wi2.id →
        AzdoMgmt._convert_workitem_to_document wi1 url = .ok d1 →
        AzdoMgmt._convert_workitem_to_document wi2 url = .ok d2 →
        d1.id = d2.id) := by
  refine ⟨?_, ?_, ?_, ?_, ?_⟩
  · intro rid rurl rname c path n1 n2
    rfl
  · intro rid rurl rname c1 c2 path now
    rfl
  · intro wi url d1 d2 h1 h2
    rw [h1] at h2
    exact (Except.ok.injEq _ _ ▸ h2 : d1 = d2)
  · intro wi url d hok
    obtain ⟨cd, nm, hfd, -, hdoc⟩ := mgmt_convert_ok_shape wi url d hok
    rw [hdoc]
    exact hfd
  · intro wi1 wi2 url d1 d2 hid h1 h2
    obtain ⟨cd1, nm1, -, -, hdoc1⟩ := mgmt_convert_ok_shape wi1 url d1 h1
    obtain ⟨cd2, nm2, -, -, hdoc2⟩ := mgmt_convert_ok_shape wi2 url d2 h2
    rw [hdoc1, hdoc2]
    simp [hid]

/-- Witness for C9 at `exampleWorkItem`: the timestamp of the produced
document is the parsed native `System.ChangedDate`. -/
theorem claim_normalization_idempotent_witness :
    AzdoMgmt._convert_workitem_to_document exampleWorkItem "https://x"
      = .ok exampleMgmtDoc
  ∧ format_date exampleWorkItem.fields.changedDate = .ok exampleMgmtDoc.doc_updated_at :=
  ⟨by decide,
   claim_normalization_idempotent.2.2.2.1 exampleWorkItem "https://x" exampleMgmtDoc
     (by decide)⟩

/-- Example repository record. -/
def exampleRepo : GitRepo :=
  { id := "rid", name := "repo", url := "https://x/repo"
  , creation_date := ⟨2024, 1, 1, 0, 0, 0, 0⟩ }

/-- A connector (main variant) on which `load_credentials` was never called. -/
def credlessConnector : Azdo.AzdoConnector :=
  { project_name := "proj", repo_name := "repo", batch_size := 10
  , state_filter := "all", include_prs := true, include_workitems := true
  , include_code_files := true, azdo_client := none, base_url := "https://x" }

/-- A connector (code variant) on which `load_credentials` was never called. -/
def credlessCodeConnector : AzdoCode.CodeConnector :=
  { repo_name := "repo", project_name := "proj", branch := "main"
  , extensions := [".py"], batch_size := 10, azdo_client := none
  , base_url := "https://x" }

/-- A small world for the main variant. -/
def emptyAzdoWorld : Azdo.AzdoWorld :=
  { repo := exampleRepo, items := [], itemFetch := fun _ => none
  , prs := [], workItems := [], todayEpochDay := 19825 }

/-- A small world for the code variant. -/
def emptyCodeWorld : AzdoCode.CodeWorld :=
  { repo := exampleRepo, checkoutExists := false, files := []
  , changedFiles := [], readFile := fun _ => none }

/-- C7: without credentials, both `load_from_state` and `poll_source` (in the
main variant and in the code variant) stop with the missing-credential error
before any remote or process event, and yield no documents at all. -/
theorem claim_missing_credential (ca : Azdo.AzdoConnector) (wa : Azdo.AzdoWorld)
    (cc : AzdoCode.CodeConnector) (wc : AzdoCode.CodeWorld) (now : PyDateTime)
    (s e : Rat) (ha : ca.azdo_client = none) (hc : cc.azdo_client = none) :
    Azdo.load_from_state ca wa now = ([], some .missingCredential)
  ∧ Azdo.poll_source ca wa now s e = ([], some .missingCredential)
  ∧ AzdoCode.load_from_state cc wc now = ([], some .missingCredential)
  ∧ AzdoCode.poll_source cc wc now s e = ([], some .missingCredential) := by
  unfold Azdo.load_from_state Azdo.poll_source Azdo._fetch_from_azuredevops
    AzdoCode.load_from_state AzdoCode.poll_source AzdoCode._fetch_from_azuredevops
  rw [ha, hc]
  exact ⟨rfl, rfl, rfl, rfl⟩

/-- Witness for C7 on the concrete credential-less connectors. -/
theorem claim_missing_credential_witness :
    credlessConnector.azdo_client = none
  ∧ credlessCodeConnector.azdo_client = none
  ∧ (Azdo.load_from_state credlessConnector emptyAzdoWorld ⟨2024, 1, 1, 0, 0, 0, 0⟩
        = ([], some .missingCredential)
  ∧ Azdo.poll_source credlessConnector emptyAzdoWorld ⟨2024, 1, 1, 0, 0, 0, 0⟩ 0 1
        = ([], some .missingCredential)
  ∧ AzdoCode.load_from_state credlessCodeConnector emptyCodeWorld ⟨2024, 1, 1, 0, 0, 0, 0⟩
        = ([], some .missingCredential)
  ∧ AzdoCode.poll_source credlessCodeConnector emptyCodeWorld ⟨2024, 1, 1, 0, 0, 0, 0⟩ 0 1
        = ([], some .missingCredential)) :=
  ⟨rfl, rfl,
   claim_missing_credential credlessConnector emptyAzdoWorld credlessCodeConnector
     emptyCodeWorld ⟨2024, 1, 1, 0, 0, 0, 0⟩ 0 1 rfl rfl⟩

/-! ### Trace-shape lemmas for the main variant's segments. -/

theorem seqT_events_subset (a : List Azdo.AzdoEvent × Option PyError)
    (b : Unit → List Azdo.AzdoEvent × Option PyError) :
    ∀ ev ∈ (Azdo.seqT a b).1, ev ∈ a.1 ∨ ev ∈ (b ()).1 := by
  intro ev h
  match a with
  | (evs, some e) => exact Or.inl h
  | (evs, none) =>
    unfold Azdo.seqT at h
    rw [List.mem_append] at h
    exact h

theorem fetchBatchItems_events (c : Azdo.AzdoConnector) (w : Azdo.AzdoWorld)
    (now : PyDateTime) (l : List GitItemMeta) :
    ∀ ev ∈ (Azdo.fetchBatchItems c w now l).1, ∃ p, ev = .getItem p := by
  induction l with
  | nil => intro ev h; exact absurd h (List.not_mem_nil ev)
  | cons item rest ih =>
    intro ev h
    unfold Azdo.fetchBatchItems at h
    cases hf : w.itemFetch item.path with
    | none =>
      rw [hf] at h
      simp only [List.mem_singleton] at h
      exact ⟨item.path, h⟩
    | some code_file =>
      rw [hf] at h
      match hrec : Azdo.fetchBatchItems c w now rest with
      | (evs, .error e) =>
        rw [hrec] at h
        rw [List.mem_cons] at h
        rcases h with h | h
        · exact ⟨item.path, h⟩
        · have := ih ev
          rw [hrec] at this
          exact this h
      | (evs, .ok docs) =>
        rw [hrec] at h
        rw [List.mem_cons] at h
        rcases h with h | h
        · exact ⟨item.path, h⟩
        · have := ih ev
          rw [hrec] at this
          exact this h

theorem codeBatchLoop_events (c : Azdo.AzdoConnector) (w : Azdo.AzdoWorld)
    (now : PyDateTime) (bs : List (List GitItemMeta)) :
    ∀ ev ∈ (Azdo.codeBatchLoop c w now bs).1,
      (∃ p, ev = .getItem p) ∨ (∃ b, ev = .yieldBatch b) := by
  induction bs with
  | nil => intro ev h; exact absurd h (List.not_mem_nil ev)
  | cons b rest ih =>
    intro ev h
    unfold Azdo.codeBatchLoop at h
    match hfb : Azdo.fetchBatchItems c w now b with
    | (evs, .error e) =>
      rw [hfb] at h
      have := fetchBatchItems_events c w now b ev
      rw [hfb] at this
      exact Or.inl (this h)
    | (evs, .ok docs) =>
      rw [hfb] at h
      simp only [List.mem_append] at h
      rcases h with h | h
      · by_cases hde : docs.isEmpty
        · rw [if_pos hde] at h
          have := fetchBatchItems_events c w now b ev
          rw [hfb] at this
          exact Or.inl (this h)
        · rw [if_neg hde] at h
          rw [List.mem_append] at h
          rcases h with h | h
          · have := fetchBatchItems_events c w now b ev
            rw [hfb] at this
            exact Or.inl (this h)
          · rw [List.mem_singleton] at h
            exact Or.inr ⟨docs, h⟩
      · exact ih ev h

theorem codeSegment_events (c : Azdo.AzdoConnector) (w : Azdo.AzdoWorld)
    (now : PyDateTime) :
    ∀ ev ∈ (Azdo.codeSegment c w now).1,
      ev = .getRepository ∨ (∃ d, ev = .yieldDoc d) ∨ ev = .getItems
        ∨ (∃ p, ev = .getItem p) ∨ (∃ b, ev = .yieldBatch b) := by
  intro ev h
  unfold Azdo.codeSegment at h
  simp only [List.mem_append, List.mem_cons, List.mem_singleton] at h
  rcases h with (h | h | h) | h
  · exact Or.inl h
  · exact Or.inr (Or.inl ⟨_, h⟩)
  · simp at h
    exact Or.inr (Or.inr (Or.inl h))
  · rcases codeBatchLoop_events c w now _ ev h with h2 | h2
    · exact Or.inr (Or.inr (Or.inr (Or.inl h2)))
    · exact Or.inr (Or.inr (Or.inr (Or.inr h2)))

theorem prBatchLoop_events (bs : List (List GitPullRequest)) :
    ∀ ev ∈ Azdo.prBatchLoop bs, ∃ b, ev = .yieldBatch b := by
  induction bs with
  | nil => intro ev h; exact absurd h (List.not_mem_nil ev)
  | cons b rest ih =>
    intro ev h
    unfold Azdo.prBatchLoop at h
    rw [List.mem_cons] at h
    rcases h with h | h
    · exact ⟨_, h⟩
    · exact ih ev h

theorem prSegment_events (c : Azdo.AzdoConnector) (w : Azdo.AzdoWorld) :
    ∀ ev ∈ (Azdo.prSegment c w).1,
      ev = .getRepository ∨ ev = .getPullRequests ∨ ∃ b, ev = .yieldBatch b := by
  intro ev h
  unfold Azdo.prSegment at h
  by_cases hp : c.include_prs
  · rw [if_pos hp] at h
    simp only [List.mem_append, List.mem_cons, List.mem_singleton] at h
    rcases h with (h | h) | h
    · exact Or.inl h
    · simp at h
      exact Or.inr (Or.inl h)
    · exact Or.inr (Or.inr (prBatchLoop_events _ ev h))
  · rw [if_neg hp] at h
    exact absurd h (List.not_mem_nil ev)

theorem wiBatchLoop_events (c : Azdo.AzdoConnector) (bs : List (List AzWorkItem)) :
    ∀ ev ∈ (Azdo.wiBatchLoop c bs).1, ∃ b, ev = .yieldBatch b := by
  induction bs with
  | nil => intro ev h; exact absurd h (List.not_mem_nil ev)
  | cons b rest ih =>
    intro ev h
    unfold Azdo.wiBatchLoop at h
    match hc : Azdo.wiConvertAll c b with
    | .error e =>
      rw [hc] at h
      exact absurd h (List.not_mem_nil ev)
    | .ok docs =>
      rw [hc] at h
      rw [List.mem_cons] at h
      rcases h with h | h
      · exact ⟨docs, h⟩
      · exact ih ev h

theorem wiSegment_events (c : Azdo.AzdoConnector) (w : Azdo.AzdoWorld) :
    ∀ ev ∈ (Azdo.wiSegment c w).1,
      ev = .wiqlQuery 180 ∨ (∃ ids, ev = .getWorkItems ids)
        ∨ ∃ b, ev = .yieldBatch b := by
  intro ev h
  unfold Azdo.wiSegment at h
  by_cases hw : c.include_workitems
  · rw [if_pos hw] at h
    dsimp only at h
    rw [List.mem_append] at h
    rcases h with h | h
    · rw [List.mem_cons] at h
      rcases h with h | h
      · exact Or.inl h
      · rw [List.mem_map] at h
        obtain ⟨ids, -, hEq⟩ := h
        exact Or.inr (Or.inl ⟨ids, hEq.symm⟩)
    · exact Or.inr (Or.inr (wiBatchLoop_events c _ ev h))
  · rw [if_neg hw] at h
    exact absurd h (List.not_mem_nil ev)

theorem fetch_events_split (c : Azdo.AzdoConnector) (w : Azdo.AzdoWorld)
    (now : PyDateTime) :
    ∀ ev ∈ (Azdo._fetch_from_azuredevops c w now).1,
      ev ∈ (Azdo.codeSegment c w now).1 ∨ ev ∈ (Azdo.prSegment c w).1
        ∨ ev ∈ (Azdo.wiSegment c w).1 := by
  intro ev h
  unfold Azdo._fetch_from_azuredevops at h
  cases hcl : c.azdo_client with
  | none =>
    rw [hcl] at h
    exact absurd h (List.not_mem_nil ev)
  | some u =>
    rw [hcl] at h
    rcases seqT_events_subset _ _ ev h with h2 | h2
    · exact Or.inl h2
    · rcases seqT_events_subset _ _ ev h2 with h3 | h3
      · exact Or.inr (Or.inl h3)
      · exact Or.inr (Or.inr h3)

/-- A fixed "now" used by concrete evaluations. -/
def exampleNow : PyDateTime := ⟨2024, 4, 1, 0, 0, 0, 0⟩

/-- A credentialed connector with only work items enabled. -/
def exampleConnector : Azdo.AzdoConnector :=
  { project_name := "proj", repo_name := "repo", batch_size := 10
  , state_filter := "all", include_prs := false, include_workitems := true
  , include_code_files := false, azdo_client := some (), base_url := "https://x" }

/-- A world holding one work item last changed on epoch day 19825. -/
def exampleWiWorld : Azdo.AzdoWorld :=
  { repo := exampleRepo, items := [], itemFetch := fun _ => none
  , prs := [], workItems := [exampleWorkItem], todayEpochDay := 19825 }

/-- C2 counterexample: polling with the window `(0, 86400)` (the first epoch
day) still detail-fetches the example work item, whose last-changed time
(epoch day 19825, i.e. second 19825·86400) lies far outside that window: the
fetched set is not restricted to the window. -/
theorem claim_poll_window_counterexample :
    Azdo.AzdoEvent.getWorkItems [7]
      ∈ (Azdo.poll_source exampleConnector exampleWiWorld exampleNow 0 86400).1
  ∧ exampleWorkItem ∈ exampleWiWorld.workItems
  ∧ exampleWorkItem.id = 7
  ∧ 86400 < exampleWorkItem.changedEpochDay * 86400 := by
  refine ⟨?_, by decide, by decide, by decide⟩
  decide

/-- C2 amended: `poll_source` ignores its window entirely — its outcome
equals `load_from_state`'s and is the same for any two windows — and every
work-item query it issues uses the fixed 180-day lookback, not the window. -/
theorem claim_poll_ignores_window (c : Azdo.AzdoConnector) (w : Azdo.AzdoWorld)
    (now : PyDateTime) (s1 e1 s2 e2 : Rat) :
    Azdo.poll_source c w now s1 e1 = Azdo.load_from_state c w now
  ∧ Azdo.poll_source c w now s1 e1 = Azdo.poll_source c w now s2 e2
  ∧ (∀ days, Azdo.AzdoEvent.wiqlQuery days
        ∈ (Azdo.poll_source c w now s1 e1).1 → days = 180) := by
  refine ⟨rfl, rfl, ?_⟩
  intro days hmem
  rcases fetch_events_split c w now _ hmem with h | h | h
  · rcases codeSegment_events c w now _ h with h2 | ⟨d2, h2⟩ | h2 | ⟨p2, h2⟩ | ⟨b2, h2⟩ <;>
      exact Azdo.AzdoEvent.noConfusion h2
  · rcases prSegment_events c w _ h with h2 | h2 | ⟨b2, h2⟩ <;>
      exact Azdo.AzdoEvent.noConfusion h2
  · rcases wiSegment_events c w _ h with h2 | ⟨ids2, h2⟩ | ⟨b2, h2⟩
    · injection h2
    · exact Azdo.AzdoEvent.noConfusion h2
    · exact Azdo.AzdoEvent.noConfusion h2

/-- Witness for the amended C2 at a concrete connector, world and two
windows. -/
theorem claim_poll_ignores_window_witness :
    Azdo.poll_source exampleConnector exampleWiWorld exampleNow 0 86400
      = Azdo.load_from_state exampleConnector exampleWiWorld exampleNow
  ∧ Azdo.poll_source exampleConnector exampleWiWorld exampleNow 0 86400
      = Azdo.poll_source exampleConnector exampleWiWorld exampleNow 5000000 6000000
  ∧ (∀ days, Azdo.AzdoEvent.wiqlQuery days
        ∈ (Azdo.poll_source exampleConnector exampleWiWorld exampleNow 0 86400).1 →
        days = 180) :=
  claim_poll_ignores_window exampleConnector exampleWiWorld exampleNow 0 86400 5000000 6000000

theorem seqT_left_mem (a : List Azdo.AzdoEvent × Option PyError)
    (b : Unit → List Azdo.AzdoEvent × Option PyError) (ev : Azdo.AzdoEvent)
    (h : ev ∈ a.1) : ev ∈ (Azdo.seqT a b).1 := by
  match a with
  | (evs, some e) => exact h
  | (evs, none) =>
    unfold Azdo.seqT
    rw [List.mem_append]
    exact Or.inl h

/-- C6 amended: the pull-request and work-item toggles gate their segments —
a disabled segment contributes no events (no query, no yield) and no
`getPullRequests`/work-item-query event appears anywhere in the run — but the
code segment is guarded by a literal `if True:` and executes (lists the
repository's items) regardless of `include_code_files`. -/
theorem claim_kind_toggles (c : Azdo.AzdoConnector) (w : Azdo.AzdoWorld)
    (now : PyDateTime) (hc : c.azdo_client = some ()) :
    (c.include_prs = false → Azdo.prSegment c w = ([], none))
  ∧ (c.include_workitems = false → Azdo.wiSegment c w = ([], none))
  ∧ (c.include_prs = false →
      ∀ ev ∈ (Azdo._fetch_from_azuredevops c w now).1, ev ≠ .getPullRequests)
  ∧ (c.include_workitems = false →
      ∀ ev ∈ (Azdo._fetch_from_azuredevops c w now).1,
        (∀ d, ev ≠ .wiqlQuery d) ∧ (∀ ids, ev ≠ .getWorkItems ids))
  ∧ Azdo.AzdoEvent.getItems ∈ (Azdo._fetch_from_azuredevops c w now).1 := by
  refine ⟨?_, ?_, ?_, ?_, ?_⟩
  · intro hp
    unfold Azdo.prSegment
    rw [if_neg (by rw [hp]; exact Bool.false_ne_true)]
  · intro hw
    unfold Azdo.wiSegment
    rw [if_neg (by rw [hw]; exact Bool.false_ne_true)]
  · intro hp ev hmem
    rcases fetch_events_split c w now _ hmem with h | h | h
    · rcases codeSegment_events c w now _ h with h2 | ⟨d2, h2⟩ | h2 | ⟨p2, h2⟩ | ⟨b2, h2⟩ <;>
        · subst h2; intro hcon; exact Azdo.AzdoEvent.noConfusion hcon
    · unfold Azdo.prSegment at h
      rw [if_neg (by rw [hp]; exact Bool.false_ne_true)] at h
      exact absurd h (List.not_mem_nil ev)
    · rcases wiSegment_events c w _ h with h2 | ⟨ids2, h2⟩ | ⟨b2, h2⟩ <;>
        · subst h2; intro hcon; exact Azdo.AzdoEvent.noConfusion hcon
  · intro hw ev hmem
    rcases fetch_events_split c w now _ hmem with h | h | h
    · rcases codeSegment_events c w now _ h with h2 | ⟨d2, h2⟩ | h2 | ⟨p2, h2⟩ | ⟨b2, h2⟩ <;>
        · subst h2
          exact ⟨fun d2 hcon => Azdo.AzdoEvent.noConfusion hcon,
                 fun ids2 hcon => Azdo.AzdoEvent.noConfusion hcon⟩
    · rcases prSegment_events c w _ h with h2 | h2 | ⟨b2, h2⟩ <;>
        · subst h2
          exact ⟨fun d2 hcon => Azdo.AzdoEvent.noConfusion hcon,
                 fun ids2 hcon => Azdo.AzdoEvent.noConfusion hcon⟩
    · unfold Azdo.wiSegment at h
      rw [if_neg (by rw [hw]; exact Bool.false_ne_true)] at h
      exact absurd h (List.not_mem_nil ev)
  · unfold Azdo._fetch_from_azuredevops
    rw [hc]
    apply seqT_left_mem
    unfold Azdo.codeSegment
    dsimp only
    rw [List.mem_append]
    exact Or.inl (by simp)

/-- A connector with every per-kind toggle disabled. -/
def allOffConnector : Azdo.AzdoConnector :=
  { project_name := "proj", repo_name := "repo", batch_size := 10
  , state_filter := "all", include_prs := false, include_workitems := false
  , include_code_files := false, azdo_client := some (), base_url := "https://x" }

/-- A world with one code file. -/
def oneFileWorld : Azdo.AzdoWorld :=
  { repo := exampleRepo, items := [⟨"src/a.py"⟩]
  , itemFetch := fun p => some ⟨p, "content"⟩
  , prs := [], workItems := [], todayEpochDay := 19825 }

/-- C6 counterexample: with `include_code_files = false` the code segment
still runs — it lists the items, fetches the file and yields its document —
so a disabled kind is queried and contributes documents. -/
theorem claim_kind_toggles_counterexample :
    allOffConnector.include_code_files = false
  ∧ Azdo.AzdoEvent.getItems
      ∈ (Azdo._fetch_from_azuredevops allOffConnector oneFileWorld exampleNow).1
  ∧ Azdo.AzdoEvent.getItem "src/a.py"
      ∈ (Azdo._fetch_from_azuredevops allOffConnector oneFileWorld exampleNow).1
  ∧ ((Azdo._fetch_from_azuredevops allOffConnector oneFileWorld exampleNow).1.any
        (fun ev => match ev with | .yieldBatch b => !b.isEmpty | _ => false)) = true := by
  refine ⟨by decide, ?_, ?_, ?_⟩ <;> decide

/-- Witness for the amended C6 at `allOffConnector`. -/
theorem claim_kind_toggles_witness :
    allOffConnector.azdo_client = some ()
  ∧ ((allOffConnector.include_prs = false →
        Azdo.prSegment allOffConnector oneFileWorld = ([], none))
  ∧ (allOffConnector.include_workitems = false →
        Azdo.wiSegment allOffConnector oneFileWorld = ([], none))
  ∧ (allOffConnector.include_prs = false →
      ∀ ev ∈ (Azdo._fetch_from_azuredevops allOffConnector oneFileWorld exampleNow).1,
        ev ≠ .getPullRequests)
  ∧ (allOffConnector.include_workitems = false →
      ∀ ev ∈ (Azdo._fetch_from_azuredevops allOffConnector oneFileWorld exampleNow).1,
        (∀ d, ev ≠ .wiqlQuery d) ∧ (∀ ids, ev ≠ .getWorkItems ids))
  ∧ Azdo.AzdoEvent.getItems
      ∈ (Azdo._fetch_from_azuredevops allOffConnector oneFileWorld exampleNow).1) :=
  ⟨rfl, claim_kind_toggles allOffConnector oneFileWorld exampleNow rfl⟩

/-- C3: in the `azuredevops_code` variant a full load (`window=None`) never
returns the allow-listed file set: `start > 0.1` with `start=None` raises
`TypeError` after the clone/pull, before anything is yielded.  The
`azuredevops_codebase` variant implements the claimed fallback: with
`window=None` its file selection is the full allow-listed listing, whatever
the prior checkout state. -/
theorem claim_first_sync_fallback (c : AzdoCode.CodeConnector) (w : AzdoCode.CodeWorld)
    (now : PyDateTime) (hc : c.azdo_client = some ()) :
    (AzdoCode.load_from_state c w now).2 = some .typeError
  ∧ (∀ ev ∈ (AzdoCode.load_from_state c w now).1,
      (∀ d, ev ≠ .yieldDoc d) ∧ (∀ b, ev ≠ .yieldBatch b))
  ∧ (∀ (fc : Bool) (files exts changed : List String),
      AzdoCodebase.selectFiles fc (AzdoCodebase.get_repo_files_list files exts)
          changed none none
        = AzdoCodebase.get_repo_files_list files exts) := by
  unfold AzdoCode.load_from_state AzdoCode._fetch_from_azuredevops
  rw [hc]
  dsimp only
  refine ⟨rfl, ?_, ?_⟩
  · intro ev hmem
    by_cases hco : w.checkoutExists
    · rw [if_pos hco] at hmem
      simp only [List.mem_cons, List.not_mem_nil, or_false] at hmem
      rcases hmem with rfl | rfl | rfl | rfl <;>
        exact ⟨fun d hcon => (nomatch hcon), fun b hcon => (nomatch hcon)⟩
    · rw [if_neg hco] at hmem
      simp only [List.mem_cons, List.not_mem_nil, or_false] at hmem
      rcases hmem with rfl | rfl | rfl | rfl <;>
        exact ⟨fun d hcon => (nomatch hcon), fun b hcon => (nomatch hcon)⟩
  · intro fc files exts changed
    simp [AzdoCodebase.selectFiles]

/-- A credentialed code-variant connector. -/
def exampleCodeConnector : AzdoCode.CodeConnector :=
  { repo_name := "repo", project_name := "proj", branch := "main"
  , extensions := [".py", ".md"], batch_size := 10, azdo_client := some ()
  , base_url := "https://x" }

/-- A code-variant world with a pre-existing checkout and three files, one of
which is not allow-listed. -/
def exampleCodeWorld : AzdoCode.CodeWorld :=
  { repo := exampleRepo, checkoutExists := true
  , files := ["/git/azuredevops/repo/a.py", "/git/azuredevops/repo/README.md",
              "/git/azuredevops/repo/img.png"]
  , changedFiles := ["/git/azuredevops/repo/a.py"]
  , readFile := fun _ => some "text" }

/-- Witness for C3 on the concrete connector and world. -/
theorem claim_first_sync_fallback_witness :
    exampleCodeConnector.azdo_client = some ()
  ∧ ((AzdoCode.load_from_state exampleCodeConnector exampleCodeWorld exampleNow).2
        = some .typeError
  ∧ (∀ ev ∈ (AzdoCode.load_from_state exampleCodeConnector exampleCodeWorld exampleNow).1,
      (∀ d, ev ≠ .yieldDoc d) ∧ (∀ b, ev ≠ .yieldBatch b))
  ∧ (∀ (fc : Bool) (files exts changed : List String),
      AzdoCodebase.selectFiles fc (AzdoCodebase.get_repo_files_list files exts)
          changed none none
        = AzdoCodebase.get_repo_files_list files exts)) :=
  ⟨rfl, claim_first_sync_fallback exampleCodeConnector exampleCodeWorld exampleNow rfl⟩

theorem fetchBatchItems_err (c : Azdo.AzdoConnector) (w : Azdo.AzdoWorld)
    (now : PyDateTime) (l : List GitItemMeta)
    (hf : ∃ item ∈ l, w.itemFetch item.path = none) :
    ∃ e, (Azdo.fetchBatchItems c w now l).2 = .error e := by
  induction l with
  | nil =>
    obtain ⟨item, hmem, -⟩ := hf
    exact absurd hmem (List.not_mem_nil item)
  | cons item rest ih =>
    cases hfi : w.itemFetch item.path with
    | none =>
      refine ⟨.requestError, ?_⟩
      unfold Azdo.fetchBatchItems
      rw [hfi]
    | some cf =>
      obtain ⟨it2, hmem, hnone⟩ := hf
      rw [List.mem_cons] at hmem
      rcases hmem with rfl | hmem
      · exact absurd hfi (by rw [hnone]; intro hcon; cases hcon)
      · obtain ⟨e, he⟩ := ih ⟨it2, hmem, hnone⟩
        refine ⟨e, ?_⟩
        unfold Azdo.fetchBatchItems
        rw [hfi]
        rcases hrec : Azdo.fetchBatchItems c w now rest with ⟨evs, res⟩
        rw [hrec] at he
        simp only at he
        rw [he]

theorem codeBatchLoop_err (c : Azdo.AzdoConnector) (w : Azdo.AzdoWorld)
    (now : PyDateTime) (bs : List (List GitItemMeta))
    (hf : ∃ b ∈ bs, ∃ item ∈ b, w.itemFetch item.path = none) :
    ∃ e, (Azdo.codeBatchLoop c w now bs).2 = some e := by
  induction bs with
  | nil =>
    obtain ⟨b, hmem, -⟩ := hf
    exact absurd hmem (List.not_mem_nil b)
  | cons b rest ih =>
    rcases hfb : Azdo.fetchBatchItems c w now b with ⟨evs, res⟩
    cases res with
    | error e =>
      refine ⟨e, ?_⟩
      unfold Azdo.codeBatchLoop
      rw [hfb]
    | ok docs =>
      obtain ⟨b2, hmem, hitem⟩ := hf
      rw [List.mem_cons] at hmem
      rcases hmem with rfl | hmem
      · obtain ⟨e, he⟩ := fetchBatchItems_err c w now b2 hitem
        rw [hfb] at he
        simp only at he
        cases he
      · obtain ⟨e, he⟩ := ih ⟨b2, hmem, hitem⟩
        refine ⟨e, ?_⟩
        unfold Azdo.codeBatchLoop
        rw [hfb]
        dsimp only
        exact he

theorem seqT_err (a : List Azdo.AzdoEvent × Option PyError)
    (b : Unit → List Azdo.AzdoEvent × Option PyError) (e : PyError)
    (h : a.2 = some e) : (Azdo.seqT a b).2 = some e := by
  rcases a with ⟨evs, res⟩
  simp only at h
  rw [h]
  rfl

theorem processOneBatch_err (c : AzdoCode.CodeConnector) (w : AzdoCode.CodeWorld)
    (now : PyDateTime) (ru rp : String) (l : List String)
    (hf : ∃ f ∈ l, w.readFile f = none) :
    ∃ e, (AzdoCode.processOneBatch c w now ru rp l).2 = .error e := by
  induction l with
  | nil =>
    obtain ⟨f, hmem, -⟩ := hf
    exact absurd hmem (List.not_mem_nil f)
  | cons item rest ih =>
    cases hfi : w.readFile item with
    | none =>
      refine ⟨.osError, ?_⟩
      unfold AzdoCode.processOneBatch
      rw [hfi]
    | some content =>
      obtain ⟨f2, hmem, hnone⟩ := hf
      rw [List.mem_cons] at hmem
      rcases hmem with rfl | hmem
      · exact absurd hfi (by rw [hnone]; intro hcon; cases hcon)
      · obtain ⟨e, he⟩ := ih ⟨f2, hmem, hnone⟩
        refine ⟨e, ?_⟩
        unfold AzdoCode.processOneBatch
        rw [hfi]
        rcases hrec : AzdoCode.processOneBatch c w now ru rp rest with ⟨evs, res⟩
        rw [hrec] at he
        simp only at he
        rw [he]

theorem process_files_err (c : AzdoCode.CodeConnector) (w : AzdoCode.CodeWorld)
    (now : PyDateTime) (ru rp : String) (bs : List (List String))
    (hf : ∃ b ∈ bs, ∃ f ∈ b, w.readFile f = none) :
    ∃ e, (AzdoCode.process_files c w now ru rp bs).2 = some e := by
  induction bs with
  | nil =>
    obtain ⟨b, hmem, -⟩ := hf
    exact absurd hmem (List.not_mem_nil b)
  | cons b rest ih =>
    rcases hfb : AzdoCode.processOneBatch c w now ru rp b with ⟨evs, res⟩
    cases res with
    | error e =>
      refine ⟨e, ?_⟩
      unfold AzdoCode.process_files
      rw [hfb]
    | ok docs =>
      obtain ⟨b2, hmem, hitem⟩ := hf
      rw [List.mem_cons] at hmem
      rcases hmem with rfl | hmem
      · obtain ⟨e, he⟩ := processOneBatch_err c w now ru rp b2 hitem
        rw [hfb] at he
        simp only at he
        cases he
      · obtain ⟨e, he⟩ := ih ⟨b2, hmem, hitem⟩
        refine ⟨e, ?_⟩
        unfold AzdoCode.process_files
        rw [hfb]
        dsimp only
        exact he

theorem azcode_fetchTail_err (c : AzdoCode.CodeConnector) (w : AzdoCode.CodeWorld)
    (now : PyDateTime) (ru rp : String) (evs : List AzdoCode.CodeEvent)
    (fl : List String) (hbs : c.batch_size ≠ 0)
    (hf : ∃ f ∈ fl, w.readFile f = none) :
    ∃ e, (AzdoCode.fetchTail c w now ru rp evs fl).2 = some e := by
  have hbatch : ∃ b ∈ batch_azuredevops_objects fl c.batch_size, ∃ f ∈ b,
      w.readFile f = none := by
    obtain ⟨f, hmem, hnone⟩ := hf
    have : f ∈ (batch_azuredevops_objects fl c.batch_size).flatten := by
      rw [batch_flatten fl c.batch_size hbs]
      exact hmem
    rw [List.mem_flatten] at this
    obtain ⟨b, hb, hfb⟩ := this
    exact ⟨b, hb, f, hfb, hnone⟩
  unfold AzdoCode.fetchTail
  cases hrm : fl.find? (fun f => f.toLower.endsWith "readme.md") with
  | none =>
    dsimp only
    obtain ⟨e, he⟩ := process_files_err c w now ru rp
      (batch_azuredevops_objects fl c.batch_size) hbatch
    exact ⟨e, he⟩
  | some rm =>
    dsimp only
    cases hrd : w.readFile rm with
    | none => exact ⟨.osError, rfl⟩
    | some content =>
      dsimp only
      obtain ⟨e, he⟩ := process_files_err c w now ru rp
        (batch_azuredevops_objects fl c.batch_size) hbatch
      exact ⟨e, he⟩

/-- C8 amended: there is no per-entity skip.  In the main variant, one failed
`get_item` makes the whole fetch end in an escaped exception; likewise, in the
code variant (on the poll path that processes the full listing), one
unreadable file makes the fetch end in an escaped exception.  Only decoding
problems are tolerated, by `errors="ignore"` byte replacement, not by
skipping. -/
theorem claim_failure_aborts_run (c : Azdo.AzdoConnector) (w : Azdo.AzdoWorld)
    (cc : AzdoCode.CodeConnector) (wc : AzdoCode.CodeWorld) (now : PyDateTime)
    (s e : Rat) :
    ((c.azdo_client = some () ∧ c.batch_size ≠ 0
        ∧ ∃ item ∈ w.items, w.itemFetch item.path = none) →
      (Azdo._fetch_from_azuredevops c w now).2 ≠ none)
  ∧ ((cc.azdo_client = some () ∧ cc.batch_size ≠ 0 ∧ ¬ s > (1 : Rat) / 10
        ∧ ∃ f ∈ AzdoCode.get_repo_files_list wc.files cc.extensions,
            wc.readFile f = none) →
      (AzdoCode._fetch_from_azuredevops cc wc now (some s) (some e)).2 ≠ none) := by
  constructor
  · rintro ⟨hc, hbs, item, hmem, hnone⟩
    have hitem2 : item ∈ (batch_azuredevops_objects w.items c.batch_size).flatten := by
      rw [batch_flatten w.items c.batch_size hbs]
      exact hmem
    rw [List.mem_flatten] at hitem2
    obtain ⟨b, hb, hib⟩ := hitem2
    obtain ⟨e2, he2⟩ := codeBatchLoop_err c w now
      (batch_azuredevops_objects w.items c.batch_size) ⟨b, hb, item, hib, hnone⟩
    have hcs : (Azdo.codeSegment c w now).2 = some e2 := by
      unfold Azdo.codeSegment
      dsimp only
      exact he2
    unfold Azdo._fetch_from_azuredevops
    rw [hc]
    rw [seqT_err _ _ e2 hcs]
    exact Option.noConfusion
  · rintro ⟨hc, hbs, hs, f, hmem, hnone⟩
    unfold AzdoCode._fetch_from_azuredevops
    rw [hc]
    dsimp only
    rw [if_neg hs]
    obtain ⟨e2, he2⟩ := azcode_fetchTail_err cc wc now _ _ _ _ hbs ⟨f, hmem, hnone⟩
    rw [he2]
    exact Option.noConfusion

/-- A connector with batch size 1 and only the code segment active. -/
def smallBatchConnector : Azdo.AzdoConnector :=
  { project_name := "proj", repo_name := "repo", batch_size := 1
  , state_filter := "all", include_prs := false, include_workitems := false
  , include_code_files := true, azdo_client := some (), base_url := "https://x" }

/-- A world where fetching the first listed item fails and the second
would succeed. -/
def oneFailWorld : Azdo.AzdoWorld :=
  { repo := exampleRepo
  , items := [⟨"a.py"⟩, ⟨"b.py"⟩]
  , itemFetch := fun p => if p = "a.py" then none else some ⟨p, "ok"⟩
  , prs := [], workItems := [], todayEpochDay := 19825 }

/-- C8 counterexample: the failed fetch of `a.py` escapes as a fatal error;
the healthy entity `b.py` is never fetched and no document batch is produced
— the single failure is not skipped and the rest of the listing is lost. -/
theorem claim_partial_failure_counterexample :
    oneFailWorld.itemFetch "a.py" = none
  ∧ (oneFailWorld.itemFetch "b.py").isSome = true
  ∧ (Azdo._fetch_from_azuredevops smallBatchConnector oneFailWorld exampleNow).2
      = some .requestError
  ∧ Azdo.AzdoEvent.getItem "a.py"
      ∈ (Azdo._fetch_from_azuredevops smallBatchConnector oneFailWorld exampleNow).1
  ∧ Azdo.AzdoEvent.getItem "b.py"
      ∉ (Azdo._fetch_from_azuredevops smallBatchConnector oneFailWorld exampleNow).1
  ∧ ((Azdo._fetch_from_azuredevops smallBatchConnector oneFailWorld exampleNow).1.any
        (fun ev => match ev with | .yieldBatch _ => true | _ => false)) = false := by
  refine ⟨by decide, by decide, by decide, by decide, by decide, by decide⟩

/-- A code-variant world whose only (allow-listed) file is unreadable. -/
def unreadableCodeWorld : AzdoCode.CodeWorld :=
  { repo := exampleRepo, checkoutExists := true
  , files := ["/git/azuredevops/repo/a.py"]
  , changedFiles := []
  , readFile := fun _ => none }

/-- Witness for the amended C8 on concrete connectors and worlds. -/
theorem claim_failure_aborts_run_witness :
    (Azdo._fetch_from_azuredevops smallBatchConnector oneFailWorld exampleNow).2 ≠ none
  ∧ (AzdoCode._fetch_from_azuredevops exampleCodeConnector unreadableCodeWorld exampleNow
        (some 0) (some 0)).2 ≠ none :=
  ⟨(claim_failure_aborts_run smallBatchConnector oneFailWorld exampleCodeConnector
      unreadableCodeWorld exampleNow 0 0).1
     ⟨rfl, by decide, ⟨⟨"a.py"⟩, by decide, by decide⟩⟩,
   (claim_failure_aborts_run smallBatchConnector oneFailWorld exampleCodeConnector
      unreadableCodeWorld exampleNow 0 0).2
     ⟨rfl, by decide, by norm_num, ⟨"/git/azuredevops/repo/a.py", by decide, rfl⟩⟩⟩
